import Mathlib

/-!
Verification of the swagger_builder core: a shallow embedding of the
document model, the YAML serializer, the YAML importer, the structural
validator, and the derived-field synchronizers, together with proofs of
the specification's claims about them.

JavaScript semantics conventions used throughout the embedding:
* `undefined` is modelled as `Option.none`; a JS value that may be
  `undefined` is an `Option`.
* JS truthiness of an optional string (`if (x)`) is `x` present and
  nonempty; of an optional boolean, `x = some true`.
* Code that can throw a `TypeError` at runtime (method calls or property
  accesses on values of unexpected shape reached through `as` casts) is
  modelled in the `Except String` monad; a thrown error is `.error`.
* The characters `{`, `}` and the single quote are written through
  `Char.ofNat`/escapes to keep the file encoding-neutral.
-/

/-- The `{` character. -/
def lbrace : Char := Char.ofNat 123

/-- The `}` character. -/
def rbrace : Char := Char.ofNat 125

/-- The single-quote character. -/
def squote : Char := Char.ofNat 39

/-- `n` spaces, as in `' '.repeat(indent)`. -/
def spaces (n : Nat) : String := String.mk (List.replicate n ' ')

/-- JS truthiness of an optional string field (`undefined` and `''` are falsy). -/
def optTruthy : Option String → Bool
  | some s => s ≠ ""
  | none => false

/-- JS truthiness of an optional boolean field (only `true` is truthy). -/
def optBoolTruthy : Option Bool → Bool
  | some b => b
  | none => false

/-! Character-list string utilities. Core `String.splitOn`, `contains`,
`startsWith`, `trim`, `toUpper` and `toNat?` work on byte positions, which
the kernel cannot reduce; the claims' witnesses are checked by kernel
evaluation, so the embedding uses these structurally recursive equivalents
(they agree with the JS operations the source performs). -/

/-- Split worker: `acc` holds the current piece reversed. -/
def charSplitAux (sep : Char) : List Char → List Char → List (List Char)
  | [], acc => [acc.reverse]
  | c :: rest, acc =>
    if c = sep then acc.reverse :: charSplitAux sep rest []
    else charSplitAux sep rest (c :: acc)

/-- `s.split(sep)` for a one-character separator (all separators the
source splits on are one character). -/
def charSplit (sep : Char) (s : String) : List String :=
  (charSplitAux sep s.data []).map String.mk

/-- `s.includes(c)` for one character. -/
def strContainsChar (s : String) (c : Char) : Bool := s.data.contains c

/-- `s.startsWith(pre)`. -/
def strStartsWith (s pre : String) : Bool := pre.data.isPrefixOf s.data

/-- `s.endsWith(suf)`. -/
def strEndsWith (s suf : String) : Bool := suf.data.isSuffixOf s.data

/-- `s.trim()`. -/
def strTrim (s : String) : String :=
  String.mk (((s.data.dropWhile Char.isWhitespace).reverse.dropWhile
    Char.isWhitespace).reverse)

/-- `s.toUpperCase()` (ASCII, as used on HTTP verb names). -/
def strToUpper (s : String) : String := String.mk (s.data.map Char.toUpper)

/-- `sep.join`-style interleaving (`Array.prototype.join` /
re-assembling split lines). -/
def joinSep (sep : String) (l : List String) : String :=
  String.mk (List.intercalate sep.data (l.map String.data))

/-- Digits-only numeral reading (worker for `strToNat?`). -/
def digitsToNat? : List Char → Option Nat
  | [] => none
  | l => l.foldl (fun acc c =>
      match acc with
      | none => none
      | some n => if c.isDigit then some (n * 10 + (c.toNat - 48)) else none)
    (some 0)

/-- Decimal reading of a natural (array-index strings). -/
def strToNat? (s : String) : Option Nat := digitsToNat? s.data

/-- Decimal reading of an integer (plain YAML number scalars). -/
def strToInt? (s : String) : Option Int :=
  match s.data with
  | '-' :: rest => (digitsToNat? rest).map (fun n => -(n : Int))
  | l => (digitsToNat? l).map (fun n => (n : Int))

/-! ## Path-parameter synchronizer (`src/utils/pathParameterParser.ts`) -/

/-- A parameter of an operation (`PathParameter` in `types/swagger`).
`paramIn` is the source's `in` field (renamed: `in` is a Lean keyword);
at runtime it is a plain string (`'path' | 'query' | 'header' | 'cookie'`).
The trailing optional fields are only read by the serializer. -/
structure PathParameter where
  name : String
  paramIn : String
  description : String
  required : Bool
  type : String
  format : Option String := none
  enum : Option String := none
  default : Option String := none
  «example» : Option String := none
  deprecated : Option Bool := none
  deriving Repr, DecidableEq

/-- The repeated-match semantics of `path.match(/\{([^}]+)\}/g)` /
`regex.exec` in `extractPathParameters`: at each `{`, the regex engine
captures the (nonempty, greedy) run of non-`}` characters provided a `}`
follows; an empty `{}` yields no match at that position and scanning
resumes after it; with no closing brace left, no further match exists. -/
def extractAux : List Char → Option (List Char) → List String
  | [], _ => []
  | c :: rest, none =>
    if c = lbrace then extractAux rest (some []) else extractAux rest none
  | c :: rest, some acc =>
    if c = rbrace then
      if acc.isEmpty then extractAux rest none
      else String.mk acc.reverse :: extractAux rest none
    else extractAux rest (some (c :: acc))

/-- `extractPathParameters` from `pathParameterParser.ts`: the placeholder
names occurring in a path template, in order of appearance. -/
def extractPathParameters (path : String) : List String :=
  extractAux path.data none

/-- The fresh parameter created for a newly introduced placeholder
(`{ name, in: 'path', description: '', required: true, type: 'string' }`). -/
def defaultPathParam (n : String) : PathParameter :=
  { name := n, paramIn := "path", description := "", required := true, type := "string" }

/-- `syncPathParameters` from `pathParameterParser.ts`, translated clause by
clause: keep existing path-location parameters whose name is still detected,
keep non-path parameters, create fresh parameters for new names, and emit
path parameters in template order followed by the non-path parameters. -/
def syncPathParameters (currentParams : List PathParameter) (pathString : String) :
    List PathParameter :=
  let detectedParamNames := extractPathParameters pathString
  let existingPathParams := currentParams.filter
    (fun p => p.paramIn == "path" && detectedParamNames.contains p.name)
  let nonPathParams := currentParams.filter (fun p => !(p.paramIn == "path"))
  let existingPathParamNames := existingPathParams.map (fun p => p.name)
  let newPathParams := (detectedParamNames.filter
    (fun n => !(existingPathParamNames.contains n))).map defaultPathParam
  let orderedPathParams := (detectedParamNames.map
    (fun n => ((existingPathParams.find? (fun p => p.name == n)).orElse
      (fun _ => newPathParams.find? (fun p => p.name == n))))).filterMap id
  orderedPathParams ++ nonPathParams

/-- The synchronizer as the claim words it: each placeholder, in template
order, is mapped to the first existing path-location parameter of that name
(or a fresh default), followed by the non-path parameters untouched. -/
def syncSpec (currentParams : List PathParameter) (pathString : String) :
    List PathParameter :=
  ((extractPathParameters pathString).map
    (fun n => ((currentParams.find? (fun p => p.paramIn == "path" && p.name == n)).getD
      (defaultPathParam n))))
  ++ currentParams.filter (fun p => !(p.paramIn == "path"))


/-! ## Operation-id generator (`src/utils/operationIdGenerator.ts`) -/

/-- `word.charAt(0).toUpperCase() + word.slice(1)` (on the empty word this
yields the empty word, as in JS). -/
def capitalizeWord (w : String) : String :=
  match w.data with
  | [] => ""
  | c :: cs => String.mk (c.toUpper :: cs)

/-- `generateOperationId` from `operationIdGenerator.ts`. -/
def generateOperationId (method : String) (pathStr : String) : String :=
  let pathParts := (charSplit '/' pathStr).filter
    (fun p => p ≠ "" && !(strStartsWith p "\x7b"))
  let lastPart := pathParts.getLast?.getD ""
  let formattedPart := String.join ((charSplit '-' lastPart).map capitalizeWord)
  method ++ formattedPart

/-- The last segment of a template that is nonempty and does not begin
with a brace, as the claim describes it. -/
def lastGoodSegment (pathStr : String) : String :=
  (((charSplit '/' pathStr).filter (fun p => p ≠ "" && !(strStartsWith p "\x7b"))).getLast?).getD ""

/-- The claim's formatting of one segment: capitalize each hyphen-delimited
word and concatenate. -/
def camelSegment (seg : String) : String :=
  String.join ((charSplit '-' seg).map capitalizeWord)

/-! ## Serializer string formatting (`formatDescription` in `yamlGenerator.ts`) -/

/-- Character-level semantics of `description.replace(/'/g, "''")`: every
single quote is doubled, all other characters are kept. -/
def replaceQuotes (l : List Char) : List Char :=
  l.flatMap (fun c => if c = squote then [c, c] else [c])

/-- `formatDescription` from `yamlGenerator.ts`: `''` for the empty string,
a literal block scalar for strings containing a newline, and a
single-quoted scalar (quotes doubled) otherwise. -/
def formatDescription (description : String) (indent : Nat) : String :=
  if description = "" then "\x27\x27"
  else if strContainsChar description '\n' then
    "|\n" ++ joinSep "\n"
      ((charSplit '\n' description).map (fun line => spaces indent ++ line))
  else
    String.mk (squote :: replaceQuotes description.data ++ [squote])

/-! ## `$ref` extraction (`extractSchemaRef` in `yamlImporter.ts`) -/

/-- The characters JS regex `.` does not match (line terminators). -/
def isRegexDotChar (c : Char) : Bool :=
  c ≠ '\n' && c ≠ '\r' && c ≠ Char.ofNat 0x2028 && c ≠ Char.ofNat 0x2029

/-- The marker `#/components/schemas/` the importer's ref regex looks for. -/
def schemasMarker : List Char := "#/components/schemas/".data

/-- Semantics of `ref.match(/#\/components\/schemas\/(.+)/)`: at the
leftmost position where the marker occurs followed by at least one
non-line-terminator character, capture the greedy run of such characters;
otherwise no match. -/
def refMatch (l : List Char) : Option (List Char) :=
  match l with
  | [] => none
  | _ :: rest =>
    if schemasMarker.isPrefixOf l then
      let tail := l.drop schemasMarker.length
      let cap := tail.takeWhile isRegexDotChar
      if cap.isEmpty then refMatch rest else some cap
    else refMatch rest

/-- `extractSchemaRef` from `yamlImporter.ts` on a string argument
(`undefined` is passed as `""`, which the falsiness guard sends to `""`). -/
def extractSchemaRef (ref : String) : String :=
  if ref = "" then ""
  else
    match refMatch ref.data with
    | some cap => String.mk cap
    | none => ""

/-! ## Document model (`src/types/swagger`, as used by the core) -/

/-- Contact info (`info.contact`): all fields optional. -/
structure SwaggerContact where
  name : Option String := none
  email : Option String := none
  url : Option String := none
  deriving Repr, DecidableEq

/-- License info (`info.license`): `name` required when present. -/
structure SwaggerLicense where
  name : String
  url : Option String := none
  deriving Repr, DecidableEq

/-- Document info block. -/
structure SwaggerInfo where
  title : String
  description : String
  version : String
  termsOfService : Option String := none
  contact : Option SwaggerContact := none
  license : Option SwaggerLicense := none
  deriving Repr, DecidableEq

/-- A server entry. -/
structure SwaggerServer where
  url : String
  description : String
  deriving Repr, DecidableEq

/-- A tag entry. -/
structure SwaggerTag where
  name : String
  description : String
  deriving Repr, DecidableEq

/-- A security scheme. `inLoc` is the source's `in` field (Lean keyword);
at runtime `type` is a plain string. -/
structure SwaggerSecurityScheme where
  name : String
  type : String
  scheme : Option String := none
  bearerFormat : Option String := none
  inLoc : Option String := none
  apiKeyName : Option String := none
  deriving Repr, DecidableEq

/-- A response of an operation. -/
structure PathResponse where
  statusCode : String
  description : String
  schemaRef : String
  deriving Repr, DecidableEq

/-- A request body of an operation. -/
structure RequestBody where
  description : String
  required : Bool
  schemaRef : String
  contentType : String
  deriving Repr, DecidableEq

/-- One operation of a path. `method` is a plain string at runtime
(`'get' | 'post' | ...`, and whatever the importer's cast lets through). -/
structure PathOperation where
  method : String
  tags : List String
  summary : String
  operationId : String
  description : String
  parameters : List PathParameter
  responses : List PathResponse
  requestBody : Option RequestBody := none
  security : Option (List String) := none
  deprecated : Option Bool := none
  deriving Repr, DecidableEq

/-- A path in the current (operations-array) format. -/
structure SwaggerPath where
  path : String
  operations : List PathOperation
  deriving Repr, DecidableEq

/-- The `items` descriptor of an array-typed property
(`{ type, $ref }`; `$ref` is renamed `ref`). -/
structure PropertyItems where
  type : String
  ref : String
  deriving Repr, DecidableEq

/-- A property of a component schema (`$ref` is renamed `ref`;
`example` is a plain string as the importer stores it). -/
structure SchemaProperty where
  name : String
  type : String
  description : String
  «example» : String
  required : Bool
  format : Option String := none
  nullable : Option Bool := none
  readOnly : Option Bool := none
  writeOnly : Option Bool := none
  deprecated : Option Bool := none
  pattern : Option String := none
  minLength : Option Int := none
  maxLength : Option Int := none
  minimum : Option Int := none
  maximum : Option Int := none
  default : Option String := none
  ref : String := ""
  items : Option PropertyItems := none
  enumValues : String := ""
  deriving Repr, DecidableEq

/-- A named component schema. -/
structure SwaggerSchema where
  name : String
  type : String
  properties : List SchemaProperty
  isTemplate : Option Bool := none
  deriving Repr, DecidableEq

/-- The whole document model. -/
structure SwaggerDocument where
  openapi : String
  info : SwaggerInfo
  servers : List SwaggerServer
  securitySchemes : List SwaggerSecurityScheme
  tags : List SwaggerTag
  paths : List SwaggerPath
  schemas : List SwaggerSchema
  deriving Repr, DecidableEq

/-! ## Legacy-format migration
(`migrateDocument` in `hooks/useSwaggerDocument.ts` and
`ensureOperationsFormat` in `utils/yamlGenerator.ts`)

A stored path may be in the legacy flat shape (`method`/`summary`/... on the
path record itself, no `operations` array) or in the current shape. `RawPath`
carries both sets of fields as optionals, mirroring the untyped (`as any`)
record the migration code actually receives. -/

/-- A possibly-legacy path record. -/
structure RawPath where
  path : String
  operations : Option (List PathOperation) := none
  method : Option String := none
  tags : Option (List String) := none
  summary : Option String := none
  operationId : Option String := none
  description : Option String := none
  parameters : Option (List PathParameter) := none
  responses : Option (List PathResponse) := none
  requestBody : Option RequestBody := none
  security : Option (List String) := none
  deprecated : Option Bool := none
  deriving Repr, DecidableEq

/-- A document whose paths may still be in the legacy shape. -/
structure RawDocument where
  openapi : String
  info : SwaggerInfo
  servers : List SwaggerServer
  securitySchemes : List SwaggerSecurityScheme
  tags : List SwaggerTag
  paths : List RawPath
  schemas : List SwaggerSchema
  deriving Repr, DecidableEq

/-- The single-element operation wrapped out of a legacy flat path
(`useSwaggerDocument.ts`, lines 49-60; note `(oldPath.security) || undefined`
keeps any present array, an array being truthy in JS). -/
def legacyOperationOf (p : RawPath) (m : String) : PathOperation :=
  { method := m
    tags := p.tags.getD []
    summary := p.summary.getD ""
    operationId := p.operationId.getD ""
    description := p.description.getD ""
    parameters := p.parameters.getD []
    responses := p.responses.getD []
    requestBody := p.requestBody
    security := p.security
    deprecated := p.deprecated }

/-- `migrateDocument`'s per-path step (`useSwaggerDocument.ts` lines 39-67):
a path with an `operations` array is returned as-is; a path with a truthy
string `method` is rewrapped as `{ path, operations: [operation] }`;
anything else passes through. -/
def migratePath (p : RawPath) : RawPath :=
  match p.operations with
  | some _ => p
  | none =>
    match p.method with
    | some m =>
      if m = "" then p
      else { path := p.path, operations := some [legacyOperationOf p m] }
    | none => p

/-- `migrateDocument` from `useSwaggerDocument.ts`. -/
def migrateDocument (doc : RawDocument) : RawDocument :=
  { doc with paths := doc.paths.map migratePath }

/-- `ensureOperationsFormat`'s per-path step (`yamlGenerator.ts` lines 11-36);
it builds the same single-element operations list from the same fields. -/
def ensureOperationsFormatPath (p : RawPath) : RawPath :=
  match p.operations with
  | some _ => p
  | none =>
    match p.method with
    | some m =>
      if m = "" then p
      else { path := p.path, operations := some [legacyOperationOf p m] }
    | none => p

/-- `ensureOperationsFormat` from `yamlGenerator.ts` (lines 8-38). -/
def ensureOperationsFormat (doc : RawDocument) : RawDocument :=
  { doc with paths := doc.paths.map ensureOperationsFormatPath }

/-- The embedding of a well-formed document into the raw shape
(every path already carries its operations array). -/
def SwaggerPath.toRaw (p : SwaggerPath) : RawPath :=
  { path := p.path, operations := some p.operations }

/-- A well-formed document, viewed as a raw one. -/
def SwaggerDocument.toRaw (doc : SwaggerDocument) : RawDocument :=
  { openapi := doc.openapi, info := doc.info, servers := doc.servers
    securitySchemes := doc.securitySchemes, tags := doc.tags
    paths := doc.paths.map SwaggerPath.toRaw, schemas := doc.schemas }

/-! ## Duplicate operation (`duplicatePath` in `hooks/useSwaggerDocument.ts`) -/

/-- The candidate methods tried by `duplicatePath` (lines 380-382). -/
def availableMethods : List String := ["get", "post", "put", "patch", "delete"]

/-- `duplicatePath` from `useSwaggerDocument.ts` (lines 375-418), as the pure
document transformation performed by its `setDocument` call. Out-of-range
indices make the source dereference `undefined` (a thrown `TypeError`),
modelled as `none`. The parameter/response deep copies (`.map(p => ({...p}))`)
are the identity on the value model. -/
def duplicatePath (doc : SwaggerDocument) (pathIndex operationIndex : Nat) :
    Option SwaggerDocument :=
  match doc.paths.get? pathIndex with
  | none => none
  | some path =>
    match path.operations.get? operationIndex with
    | none => none
    | some operation =>
      let usedMethods := path.operations.map (fun op => op.method)
      let nextMethod := availableMethods.find? (fun m => !(usedMethods.contains m))
      match nextMethod with
      | none =>
        let newPath : SwaggerPath :=
          { path := path.path ++ "_copy"
            operations := [{ operation with
              operationId := operation.operationId ++ "_copy" }] }
        some { doc with paths := doc.paths ++ [newPath] }
      | some m =>
        let newOperation := { operation with
          method := m
          operationId := generateOperationId m path.path }
        some { doc with paths := (doc.paths.mapIdx
          (fun i p => if i = pathIndex then
            { p with operations := p.operations ++ [newOperation] } else p)) }

/-! ## YAML values and JavaScript-semantics helpers

`yaml.parse` (the external `yaml` package) produces plain JS values; `Yaml`
is their shallow model. The importer and validator traverse such values
through `as` casts, so property accesses and method calls can hit values of
unexpected shape: accesses that throw a `TypeError` in JS are modelled in
`Except String`. Scalars reached where the code expects a string are stored
through their JS string rendering. -/

/-- A parsed YAML value (mapping keys in this domain are strings). -/
inductive Yaml where
  | null : Yaml
  | bool : Bool → Yaml
  | num : Int → Yaml
  | str : String → Yaml
  | seq : List Yaml → Yaml
  | map : List (String × Yaml) → Yaml

/-- JS truthiness of a parsed value. -/
def yamlTruthy : Yaml → Bool
  | .null => false
  | .bool b => b
  | .num n => n ≠ 0
  | .str s => s ≠ ""
  | .seq _ => true
  | .map _ => true

/-- `typeof v === 'object' && v !== null` for a parsed value. -/
def isObjLike : Yaml → Bool
  | .seq _ => true
  | .map _ => true
  | _ => false

/-- Property access `v[k]` on a non-nullish value: key lookup on objects,
index lookup on arrays, `undefined` on primitives. -/
def jsGet (v : Yaml) (k : String) : Option Yaml :=
  match v with
  | .map kvs => (kvs.find? (fun kv => kv.fst == k)).map Prod.snd
  | .seq l => match strToNat? k with
    | some i => l.get? i
    | none => none
  | _ => none

/-- Optional chaining `o?.k`. -/
def optChain (o : Option Yaml) (k : String) : Option Yaml :=
  match o with
  | none => none
  | some .null => none
  | some v => jsGet v k

/-- JS truthiness of a possibly-absent value. -/
def yamlTruthyOpt : Option Yaml → Bool
  | some v => yamlTruthy v
  | none => false

/-- `Object.entries(v)` on a non-nullish value: key/value pairs of an
object, indexed elements of an array or string, nothing on other
primitives. -/
def jsEntries (v : Yaml) : List (String × Yaml) :=
  match v with
  | .map kvs => kvs
  | .seq l => (l.enum.map (fun ei => (toString ei.1, ei.2)))
  | .str s => (s.data.enum.map (fun ci => (toString ci.1, Yaml.str (String.mk [ci.2]))))
  | _ => []

/-- `Object.keys(v)`; throws on `null` (and `undefined`). -/
def jsKeys (v : Yaml) : Except String (List String) :=
  match v with
  | .null => .error "TypeError"
  | _ => .ok ((jsEntries v).map Prod.fst)

/-- The JS string rendering of a value (`String(v)` / template
interpolation). Array elements joined as JS does; objects rendered by
their tag. -/
def yamlAsString : Yaml → String
  | .null => "null"
  | .bool b => if b then "true" else "false"
  | .num n => toString n
  | .str s => s
  | .seq l => String.intercalate ","
      (l.map (fun e => match e with
        | .null => ""
        | .str s => s
        | .bool b => if b then "true" else "false"
        | .num n => toString n
        | _ => "[object Object]"))
  | .map _ => "[object Object]"

/-- `(x as string) || d`: the value's rendering when truthy, else the
default. -/
def strOr (o : Option Yaml) (d : String) : String :=
  match o with
  | some v => if yamlTruthy v then yamlAsString v else d
  | none => d

/-- A conditionally assigned optional string field
(`if (x) { r.f = x as string }`). -/
def asStrOpt (o : Option Yaml) : Option String :=
  match o with
  | some v => if yamlTruthy v then some (yamlAsString v) else none
  | none => none

/-! ## Importer (`src/utils/yamlImporter.ts`) -/

/-- The result record of `importYamlDocument`. -/
structure ImportResult where
  success : Bool
  document : Option SwaggerDocument := none
  errors : List String
  warnings : List String
  deriving Repr, DecidableEq

/-- `extractSchemaRef` applied to a value cast `as string` (`undefined` and
other falsy values hit the `!ref` guard; `.match` on a truthy non-string
throws). -/
def extractSchemaRefJs (o : Option Yaml) : Except String String :=
  match o with
  | none => .ok ""
  | some v =>
    if !(yamlTruthy v) then .ok ""
    else match v with
      | .str s => .ok (extractSchemaRef s)
      | _ => .error "TypeError"

/-- `parseSecuritySchemes` (lines 60-84): one scheme per entry; accessing
`s.type` on a `null` entry throws. -/
def parseSecuritySchemesJs (o : Option Yaml) : Except String (List SwaggerSecurityScheme) :=
  match o with
  | none => .ok []
  | some v =>
    if !(yamlTruthy v) then .ok []
    else (jsEntries v).mapM (fun kv => do
      let name := kv.fst
      match kv.snd with
      | .null => .error "TypeError"
      | s =>
        let stype := jsGet s "type"
        let typeStr := strOr stype "http"
        match stype with
        | some (.str "http") =>
          .ok { name := name, type := typeStr
                scheme := some (strOr (jsGet s "scheme") "bearer")
                bearerFormat := asStrOpt (jsGet s "bearerFormat") }
        | some (.str "apiKey") =>
          .ok { name := name, type := typeStr
                inLoc := some (strOr (jsGet s "in") "header")
                apiKeyName := some (strOr (jsGet s "name") "") }
        | _ => .ok { name := name, type := typeStr })

/-- `Array.prototype.includes`-with-cast semantics of
`requiredFields.includes(name)`: element equality on an array, substring
test on a string, a thrown `TypeError` on any other truthy receiver. -/
def jsIncludes (v : Yaml) (name : String) : Except String Bool :=
  match v with
  | .seq l => .ok (l.any (fun e => match e with | .str s => s == name | _ => false))
  | .str s => .ok (decide (name.data <:+: s.data))
  | _ => .error "TypeError"

/-- The element rendering used by `Array.prototype.join` (`null` and
`undefined` become empty). -/
def jsJoinElem : Yaml → String
  | .null => ""
  | v => yamlAsString v

/-- `parseSchemaProperty` (lines 89-139). `requiredRaw` is the already
defaulted `(s.required as string[]) || []` value. -/
def parseSchemaPropertyJs (name : String) (prop : Yaml) (requiredRaw : Yaml) :
    Except String SchemaProperty := do
  match prop with
  | .null => .error "TypeError"
  | _ =>
    let req ← jsIncludes requiredRaw name
    let base : SchemaProperty :=
      { name := name, type := ""
        description := strOr (jsGet prop "description") ""
        «example» := (match jsGet prop "example" with
          | none => ""
          | some v => yamlAsString v)
        required := req, ref := ""
        items := some { type := "string", ref := "" }, enumValues := "" }
    if yamlTruthyOpt (jsGet prop "$ref") then do
      let r ← extractSchemaRefJs (jsGet prop "$ref")
      .ok { base with type := "object", ref := r }
    else do
      let propType := jsGet prop "type"
      let typeStr : String := match propType with
        | some (.str s) =>
          if s ∈ ["string", "number", "integer", "boolean", "array", "object"] then s else ""
        | _ => ""
      let fmt := asStrOpt (jsGet prop "format")
      let enumValues : String := match jsGet prop "enum" with
        | some (.seq l) => String.intercalate ", " (l.map jsJoinElem)
        | _ => ""
      let items ← (match propType, jsGet prop "items" with
        | some (.str "array"), some itemsV =>
          if yamlTruthy itemsV then
            if yamlTruthyOpt (jsGet itemsV "$ref") then do
              let r ← extractSchemaRefJs (jsGet itemsV "$ref")
              pure (some ({ type := "object", ref := r } : PropertyItems))
            else
              pure (some ({ type := strOr (jsGet itemsV "type") "string", ref := "" } :
                PropertyItems))
          else pure base.items
        | _, _ => pure base.items)
      .ok { base with type := typeStr, format := fmt, enumValues := enumValues, items := items }

/-- `parseSchemas` (lines 144-167); accessing `s.required` on a `null`
schema entry throws. -/
def parseSchemasJs (o : Option Yaml) : Except String (List SwaggerSchema) :=
  match o with
  | none => .ok []
  | some v =>
    if !(yamlTruthy v) then .ok []
    else (jsEntries v).mapM (fun kv => do
      match kv.snd with
      | .null => .error "TypeError"
      | s =>
        let requiredRaw : Yaml := match jsGet s "required" with
          | some rv => if yamlTruthy rv then rv else .seq []
          | none => .seq []
        let typeStr := strOr (jsGet s "type") "object"
        let props ← (match jsGet s "properties" with
          | some pv =>
            if yamlTruthy pv && isObjLike pv then
              (jsEntries pv).mapM (fun pkv => parseSchemaPropertyJs pkv.fst pkv.snd requiredRaw)
            else pure []
          | none => pure [])
        .ok { name := kv.fst, type := typeStr, properties := props })

/-- One parameter entry of `parseParameters` (lines 175-186); a `null`
entry throws on `p.name`. -/
def parseParamJs (p : Yaml) : Except String PathParameter :=
  match p with
  | .null => .error "TypeError"
  | _ =>
    let schema := jsGet p "schema"
    .ok { name := strOr (jsGet p "name") ""
          paramIn := strOr (jsGet p "in") "path"
          description := strOr (jsGet p "description") ""
          required := (match jsGet p "required" with
            | none => false
            | some .null => false
            | some v => yamlTruthy v)
          type := (match optChain schema "type" with
            | some tv => if yamlTruthy tv then yamlAsString tv else "string"
            | none => "string") }

/-- `parseParameters` (lines 172-187): anything but an array yields `[]`. -/
def parseParametersJs (o : Option Yaml) : Except String (List PathParameter) :=
  match o with
  | some (.seq l) => l.mapM parseParamJs
  | _ => .ok []

/-- The content-type scan of `parseResponses` (lines 203-215): the first
listed content type whose schema carries a truthy `$ref` wins. -/
def firstRefIn (content : Yaml) : List String → Except String String
  | [] => .ok ""
  | ct :: rest =>
    match jsGet content ct with
    | some mv =>
      if yamlTruthy mv then
        match jsGet mv "schema" with
        | some sv =>
          if yamlTruthy sv then
            match jsGet sv "$ref" with
            | some rv =>
              if yamlTruthy rv then extractSchemaRefJs (some rv)
              else firstRefIn content rest
            | none => firstRefIn content rest
          else firstRefIn content rest
        | none => firstRefIn content rest
      else firstRefIn content rest
    | none => firstRefIn content rest

/-- `parseResponses` (lines 192-224); a `null` response entry throws on
`r.content`. -/
def parseResponsesJs (o : Option Yaml) : Except String (List PathResponse) :=
  match o with
  | none => .ok []
  | some v =>
    if !(yamlTruthy v) then .ok []
    else (jsEntries v).mapM (fun kv => do
      match kv.snd with
      | .null => .error "TypeError"
      | r =>
        let schemaRef ← (match jsGet r "content" with
          | some cv =>
            if yamlTruthy cv && isObjLike cv then
              firstRefIn cv ["application/json", "application/vnd.api+json", "*/*"]
            else pure ""
          | none => pure "")
        .ok { statusCode := kv.fst
              description := strOr (jsGet r "description") ""
              schemaRef := schemaRef })

/-- `parseRequestBody` (lines 229-257); a `null` media-type value throws
on `mediaType.schema`. -/
def parseRequestBodyJs (o : Option Yaml) : Except String (Option RequestBody) :=
  match o with
  | none => .ok none
  | some rb =>
    if !(yamlTruthy rb) then .ok none
    else do
      let pair ← (match jsGet rb "content" with
        | some cv =>
          if yamlTruthy cv && isObjLike cv then
            match (jsEntries cv).map Prod.fst with
            | [] => pure ("", "application/json")
            | k :: _ =>
              match jsGet cv k with
              | some .null => .error "TypeError"
              | some mv =>
                (match jsGet mv "schema" with
                  | some sv =>
                    if yamlTruthy sv then
                      match jsGet sv "$ref" with
                      | some rv =>
                        if yamlTruthy rv then do
                          let r ← extractSchemaRefJs (some rv)
                          pure (r, k)
                        else pure ("", k)
                      | none => pure ("", k)
                    else pure ("", k)
                  | none => pure ("", k))
              | none => pure ("", k)
          else pure ("", "application/json")
        | none => pure ("", "application/json"))
      .ok (some { description := strOr (jsGet rb "description") ""
                  required := (match jsGet rb "required" with
                    | none => true
                    | some .null => true
                    | some v => yamlTruthy v)
                  schemaRef := pair.1, contentType := pair.2 })

/-- `securityToUse.flatMap(s => Object.keys(s))`: `.flatMap` exists only on
arrays; `Object.keys` throws on a nullish element. -/
def jsFlatMapKeys (v : Yaml) : Except String (List String) :=
  match v with
  | .seq l => do
    let keyLists ← l.mapM jsKeys
    pure keyLists.flatten
  | _ => .error "TypeError"

/-- `tags: (operation.tags as string[]) || []` on an array value (a truthy
non-array value is a cast lie outside the model's `List String` and is
recorded as `[]`). -/
def jsTags (o : Option Yaml) : List String :=
  match o with
  | some (.seq l) => l.map yamlAsString
  | _ => []

/-- The effective security of an operation (lines 279-283):
`(operation.security ?? globalSecurity)` flat-mapped over `Object.keys`
when truthy, else `[]`. -/
def effectiveSecurity (operation : Yaml) (globalSec : Option Yaml) :
    Except String (List String) :=
  let opSec := jsGet operation "security"
  let securityToUse : Option Yaml := match opSec with
    | none => globalSec
    | some .null => globalSec
    | some sv => some sv
  match securityToUse with
  | none => pure []
  | some sv => if yamlTruthy sv then jsFlatMapKeys sv else pure []

/-- One operation of `parsePaths` (lines 274-300): the effective security's
flattened key names; an empty effective list is stored as `undefined`. -/
def parseOneOperation (method : String) (operation : Yaml) (globalSec : Option Yaml) :
    Except String PathOperation := do
  let security ← effectiveSecurity operation globalSec
  let params ← parseParametersJs (jsGet operation "parameters")
  let resps ← parseResponsesJs (jsGet operation "responses")
  let rb ← parseRequestBodyJs (jsGet operation "requestBody")
  .ok { method := method
        tags := jsTags (jsGet operation "tags")
        summary := strOr (jsGet operation "summary") ""
        operationId := strOr (jsGet operation "operationId") ""
        description := strOr (jsGet operation "description") ""
        parameters := params
        responses := resps
        requestBody := rb
        security := if security.isEmpty then none else some security }

/-- The method order scanned by `parsePaths` (line 269). -/
def httpMethodsImporter : List String :=
  ["get", "post", "put", "delete", "patch", "options", "head", "trace"]

/-- One step of the per-path-item verb loop: a truthy `pathItem[method]`
becomes an operation appended to the accumulator. -/
def pathItemStep (pathItem : Yaml) (globalSec : Option Yaml)
    (acc : List PathOperation) (method : String) : Except String (List PathOperation) := do
  match jsGet pathItem method with
  | some v =>
    if yamlTruthy v then do
      let op ← parseOneOperation method v globalSec
      pure (acc ++ [op])
    else pure acc
  | none => pure acc

/-- The per-path-item loop of `parsePaths`: each truthy `pathItem[method]`
becomes an operation (indexing into a `null` path item throws). -/
def parsePathItem (pathItem : Yaml) (globalSec : Option Yaml) :
    Except String (List PathOperation) :=
  match pathItem with
  | .null => .error "TypeError"
  | _ => httpMethodsImporter.foldlM (pathItemStep pathItem globalSec) []

/-- One step of the path-entry loop: paths with at least one operation are
kept. -/
def pathsStep (globalSec : Option Yaml)
    (acc : List SwaggerPath) (kv : String × Yaml) : Except String (List SwaggerPath) := do
  let ops ← parsePathItem kv.snd globalSec
  pure (if ops.isEmpty then acc else acc ++ [{ path := kv.fst, operations := ops }])

/-- `parsePaths` (lines 262-313): paths with at least one operation are
kept, in entry order. -/
def parsePathsJs (o : Option Yaml) (globalSec : Option Yaml) :
    Except String (List SwaggerPath) :=
  match o with
  | none => .ok []
  | some pv =>
    if !(yamlTruthy pv) then .ok []
    else (jsEntries pv).foldlM (pathsStep globalSec) []

/-- The unsupported component kinds warned about (lines 376). -/
def unsupportedComponents : List String :=
  ["responses", "parameters", "examples", "requestBodies", "headers", "links", "callbacks"]

/-- `(parsed.servers || []).map(...)` (lines 359-362): `.map` on a truthy
non-array throws; a `null` element throws on `s.url`. -/
def parseServersJs (o : Option Yaml) : Except String (List SwaggerServer) :=
  match o with
  | none => pure []
  | some v =>
    if yamlTruthy v then
      match v with
      | .seq l => l.mapM (fun s => match s with
        | .null => .error "TypeError"
        | _ => pure ({ url := strOr (jsGet s "url") ""
                       description := strOr (jsGet s "description") "" } : SwaggerServer))
      | _ => .error "TypeError"
    else pure []

/-- `(parsed.tags || []).map(...)` (lines 364-367), same shape rules. -/
def parseTagsJs (o : Option Yaml) : Except String (List SwaggerTag) :=
  match o with
  | none => pure []
  | some v =>
    if yamlTruthy v then
      match v with
      | .seq l => l.mapM (fun t => match t with
        | .null => .error "TypeError"
        | _ => pure ({ name := strOr (jsGet t "name") ""
                       description := strOr (jsGet t "description") "" } : SwaggerTag))
      | _ => .error "TypeError"
    else pure []

/-- The body of `importYamlDocument` after the `yaml.parse` call
(lines 335-399): the non-object guard, the `openapi` error, the
`info.title` warning, the field-by-field conversion, the
unsupported-component warnings, and the final record whose `success` is
`errors.length === 0`. -/
def importParsed (parsed : Yaml) : Except String ImportResult :=
  if !(yamlTruthy parsed && isObjLike parsed) then
    .ok { success := false, errors := ["Invalid document: must be an object"], warnings := [] }
  else do
    let errors := if yamlTruthyOpt (jsGet parsed "openapi") then []
      else ["Missing required field: openapi"]
    let titleWarnings := if yamlTruthyOpt (optChain (jsGet parsed "info") "title") then []
      else ["Missing info.title - will be empty"]
    let info : SwaggerInfo :=
      { title := strOr (optChain (jsGet parsed "info") "title") ""
        description := strOr (optChain (jsGet parsed "info") "description") ""
        version := strOr (optChain (jsGet parsed "info") "version") "1.0.0" }
    let servers ← parseServersJs (jsGet parsed "servers")
    let tags ← parseTagsJs (jsGet parsed "tags")
    let components := jsGet parsed "components"
    let securitySchemes ← parseSecuritySchemesJs (optChain components "securitySchemes")
    let schemas ← parseSchemasJs (optChain components "schemas")
    let paths ← parsePathsJs (jsGet parsed "paths") (jsGet parsed "security")
    let componentWarnings := match components with
      | some cv =>
        if yamlTruthy cv then
          (unsupportedComponents.filter (fun comp => yamlTruthyOpt (jsGet cv comp))).map
            (fun comp => "Component \"" ++ comp ++
              "\" is not fully supported and may not be imported correctly")
        else []
      | none => []
    .ok { success := errors.isEmpty
          document := some
            { openapi := strOr (jsGet parsed "openapi") "3.0.0"
              info := info, servers := servers, securitySchemes := securitySchemes
              tags := tags, paths := paths, schemas := schemas }
          errors := errors
          warnings := titleWarnings ++ componentWarnings }

/-- `importYamlDocument` (lines 318-400) over the outcome of the external
`yaml.parse` call: a parse exception is caught and reported as a single
error with no document; everything after the catch is `importParsed`. -/
def importYamlDocument (parseResult : Except String Yaml) : Except String ImportResult :=
  match parseResult with
  | .error msg =>
    .ok { success := false, errors := ["YAML Parse Error: " ++ msg], warnings := [] }
  | .ok v => importParsed v

/-! ## Serializer (`buildYamlDocument` in `src/utils/yamlGenerator.ts`)

The source is one long string-appending function; it is decomposed here
into one helper per `forEach` body, concatenated in the source's order.
Its first step, `ensureOperationsFormat`, is the identity on documents
already carrying operations arrays (`ensureOperationsFormat_toRaw` below),
which is every value of the model's `SwaggerDocument`. -/

/-- `true`/`false` interpolation of a boolean. -/
def boolStr (b : Bool) : String := if b then "true" else "false"

/-- The comma-split-trim-filter used for `enum` lists
(`.split(',').map(v => v.trim()).filter(v => v !== '')`). -/
def splitTrimFilter (s : String) : List String :=
  ((charSplit ',' s).map (fun v => strTrim v)).filter (fun v => v ≠ "")

/-- Parameter emission (`yamlGenerator.ts` lines 141-169). -/
def buildParamYaml (param : PathParameter) : String :=
  "        - name: " ++ param.name ++ "\n"
  ++ "          in: " ++ param.paramIn ++ "\n"
  ++ "          description: " ++ formatDescription param.description 12 ++ "\n"
  ++ "          required: " ++ boolStr param.required ++ "\n"
  ++ (if optBoolTruthy param.deprecated then "          deprecated: true\n" else "")
  ++ "          schema:\n"
  ++ "            type: " ++ param.type ++ "\n"
  ++ (if optTruthy param.format then
        "            format: " ++ param.format.getD "" ++ "\n" else "")
  ++ (if optTruthy param.enum then
        (let enumArray := splitTrimFilter (param.enum.getD "")
         if !enumArray.isEmpty then
           "            enum:\n"
           ++ String.join (enumArray.map (fun v => "              - " ++ v ++ "\n"))
         else "")
      else "")
  ++ (if optTruthy param.default then
        "            default: " ++ param.default.getD "" ++ "\n" else "")
  ++ (if optTruthy param.«example» then
        "          example: " ++ param.«example».getD "" ++ "\n" else "")

/-- Request-body emission (lines 173-187). -/
def buildRequestBodyYaml (rb : RequestBody) : String :=
  "      requestBody:\n"
  ++ (if rb.description ≠ "" then
        "        description: " ++ formatDescription rb.description 10 ++ "\n" else "")
  ++ "        required: " ++ boolStr rb.required ++ "\n"
  ++ "        content:\n"
  ++ "          " ++ (if rb.contentType ≠ "" then rb.contentType else "application/json")
  ++ ":\n"
  ++ "            schema:\n"
  ++ (if rb.schemaRef ≠ "" then
        "              $ref: " ++ String.mk (squote :: ("#/components/schemas/"
          ++ rb.schemaRef).data ++ [squote]) ++ "\n"
      else "              type: object\n")

/-- Response emission (lines 191-202). -/
def buildResponseYaml (resp : PathResponse) : String :=
  "        " ++ String.mk (squote :: resp.statusCode.data ++ [squote]) ++ ":\n"
  ++ "          description: " ++ formatDescription resp.description 12 ++ "\n"
  ++ "          content:\n"
  ++ "            application/vnd.api+json:\n"
  ++ "              schema:\n"
  ++ (if resp.schemaRef ≠ "" then
        "                $ref: " ++ String.mk (squote :: ("#/components/schemas/"
          ++ resp.schemaRef).data ++ [squote]) ++ "\n"
      else "                type: object\n")

/-- Operation emission (lines 122-204). -/
def buildOperationYaml (operation : PathOperation) : String :=
  "    " ++ operation.method ++ ":\n"
  ++ (if !operation.tags.isEmpty then
        "      tags:\n"
        ++ String.join (operation.tags.map (fun tag => "        - " ++ tag ++ "\n"))
      else "")
  ++ "      summary: " ++ operation.summary ++ "\n"
  ++ "      operationId: " ++ operation.operationId ++ "\n"
  ++ "      description: " ++ formatDescription operation.description 8 ++ "\n"
  ++ (if optBoolTruthy operation.deprecated then "      deprecated: true\n" else "")
  ++ (if !operation.parameters.isEmpty then
        "      parameters:\n" ++ String.join (operation.parameters.map buildParamYaml)
      else "")
  ++ (match operation.requestBody with
      | some rb => buildRequestBodyYaml rb
      | none => "")
  ++ (if !operation.responses.isEmpty then
        "      responses:\n" ++ String.join (operation.responses.map buildResponseYaml)
      else "")

/-- Security-scheme emission (lines 218-230). -/
def buildSecuritySchemeYaml (scheme : SwaggerSecurityScheme) : String :=
  "    " ++ scheme.name ++ ":\n"
  ++ "      type: " ++ scheme.type ++ "\n"
  ++ (if scheme.type == "http" then
        "      scheme: " ++ (if optTruthy scheme.scheme then scheme.scheme.getD ""
          else "bearer") ++ "\n"
        ++ (if scheme.scheme == some "bearer" && optTruthy scheme.bearerFormat then
              "      bearerFormat: " ++ scheme.bearerFormat.getD "" ++ "\n" else "")
      else if scheme.type == "apiKey" then
        "      in: " ++ (if optTruthy scheme.inLoc then scheme.inLoc.getD ""
          else "header") ++ "\n"
        ++ "      name: " ++ (if optTruthy scheme.apiKeyName then scheme.apiKeyName.getD ""
          else "X-API-Key") ++ "\n"
      else "")

/-- Schema-property emission (lines 241-320). -/
def buildPropertyYaml (prop : SchemaProperty) : String :=
  "        " ++ prop.name ++ ":\n"
  ++ (if prop.type == "object" && prop.ref ≠ "" then
        "          $ref: " ++ String.mk (squote :: ("#/components/schemas/"
          ++ prop.ref).data ++ [squote]) ++ "\n"
      else if prop.type == "array" then
        "          type: array\n"
        ++ "          items:\n"
        ++ (match prop.items with
            | some it =>
              if it.ref ≠ "" then
                "            $ref: " ++ String.mk (squote :: ("#/components/schemas/"
                  ++ it.ref).data ++ [squote]) ++ "\n"
              else
                "            type: " ++ (if it.type ≠ "" then it.type else "string") ++ "\n"
            | none => "            type: string\n")
        ++ (if prop.description ≠ "" then
              "          description: " ++ formatDescription prop.description 10 ++ "\n"
            else "")
      else
        "          type: " ++ prop.type ++ "\n"
        ++ (if optTruthy prop.format then
              "          format: " ++ prop.format.getD "" ++ "\n" else "")
        ++ (if optBoolTruthy prop.nullable then "          nullable: true\n" else "")
        ++ (if optBoolTruthy prop.deprecated then "          deprecated: true\n" else "")
        ++ (if optBoolTruthy prop.readOnly then "          readOnly: true\n" else "")
        ++ (if optBoolTruthy prop.writeOnly then "          writeOnly: true\n" else "")
        ++ (if optTruthy prop.default then
              "          default: " ++ prop.default.getD "" ++ "\n" else "")
        ++ (if optTruthy prop.pattern then
              "          pattern: " ++ String.mk (squote :: (prop.pattern.getD "").data
                ++ [squote]) ++ "\n"
            else "")
        ++ (if prop.type == "string" then
              (match prop.minLength with
               | some n => "          minLength: " ++ toString n ++ "\n"
               | none => "")
              ++ (match prop.maxLength with
                  | some n => "          maxLength: " ++ toString n ++ "\n"
                  | none => "")
            else "")
        ++ (if prop.type == "number" || prop.type == "integer" then
              (match prop.minimum with
               | some n => "          minimum: " ++ toString n ++ "\n"
               | none => "")
              ++ (match prop.maximum with
                  | some n => "          maximum: " ++ toString n ++ "\n"
                  | none => "")
            else "")
        ++ (let enumArray := if prop.enumValues ≠ "" then splitTrimFilter prop.enumValues
              else []
            if !enumArray.isEmpty then
              "          enum:\n"
              ++ String.join (enumArray.map (fun v => "            - " ++ v ++ "\n"))
            else "")
        ++ (if prop.description ≠ "" then
              "          description: " ++ formatDescription prop.description 10 ++ "\n"
            else "")
        ++ (if prop.«example» ≠ "" then
              "          example: " ++ prop.«example» ++ "\n" else ""))

/-- Schema emission (lines 236-322). -/
def buildSchemaYaml (schema : SwaggerSchema) : String :=
  "    " ++ schema.name ++ ":\n"
  ++ "      type: " ++ schema.type ++ "\n"
  ++ (if !schema.properties.isEmpty then
        "      properties:\n" ++ String.join (schema.properties.map buildPropertyYaml)
      else "")

/-- `buildYamlDocument` (lines 61-335). -/
def buildYamlDocument (doc : SwaggerDocument) : String :=
  "openapi: " ++ doc.openapi ++ "\n"
  ++ "info:\n"
  ++ "  title: " ++ doc.info.title ++ "\n"
  ++ "  description: " ++ formatDescription doc.info.description 4 ++ "\n"
  ++ "  version: \"" ++ doc.info.version ++ "\"\n"
  ++ (if optTruthy doc.info.termsOfService then
        "  termsOfService: " ++ doc.info.termsOfService.getD "" ++ "\n" else "")
  ++ (match doc.info.contact with
      | some c =>
        if optTruthy c.name || optTruthy c.email || optTruthy c.url then
          "  contact:\n"
          ++ (if optTruthy c.name then "    name: " ++ c.name.getD "" ++ "\n" else "")
          ++ (if optTruthy c.email then "    email: " ++ c.email.getD "" ++ "\n" else "")
          ++ (if optTruthy c.url then "    url: " ++ c.url.getD "" ++ "\n" else "")
        else ""
      | none => "")
  ++ (match doc.info.license with
      | some lic =>
        if lic.name ≠ "" then
          "  license:\n"
          ++ "    name: " ++ lic.name ++ "\n"
          ++ (if optTruthy lic.url then "    url: " ++ lic.url.getD "" ++ "\n" else "")
        else ""
      | none => "")
  ++ (if !doc.servers.isEmpty then
        "servers:\n"
        ++ String.join (doc.servers.map (fun server =>
            "  - url: " ++ server.url ++ "\n"
            ++ (if server.description ≠ "" then
                  "    description: " ++ formatDescription server.description 6 ++ "\n"
                else "")))
      else "")
  ++ (if !doc.tags.isEmpty then
        "tags:\n"
        ++ String.join (doc.tags.map (fun tag =>
            "  - name: " ++ tag.name ++ "\n"
            ++ "    description: " ++ formatDescription tag.description 6 ++ "\n"))
      else "")
  ++ (if !doc.paths.isEmpty then
        "paths:\n"
        ++ String.join (doc.paths.map (fun path =>
            "  " ++ String.mk (squote :: path.path.data ++ [squote]) ++ ":\n"
            ++ String.join (path.operations.map buildOperationYaml)))
      else "")
  ++ (if !doc.schemas.isEmpty || !doc.securitySchemes.isEmpty then
        "components:\n"
        ++ (if !doc.securitySchemes.isEmpty then
              "  securitySchemes:\n"
              ++ String.join (doc.securitySchemes.map buildSecuritySchemeYaml)
            else "")
        ++ (if !doc.schemas.isEmpty then
              "  schemas:\n" ++ String.join (doc.schemas.map buildSchemaYaml)
            else "")
      else "")
  ++ (if !doc.securitySchemes.isEmpty then
        "security:\n"
        ++ String.join (doc.securitySchemes.map (fun scheme =>
            "  - " ++ scheme.name ++ ": []\n"))
      else "")

/-! ## Parsing the serializer's output

Modelled from the spec: the importer and validator delegate raw-text
parsing to the external `yaml` package (`yaml.parse`), which is not part of
this repository. `parseYamlSubset` models standard YAML semantics for the
fragment the serializer emits: nested block mappings, plain / single-quoted
/ double-quoted scalars, and clip-chomped literal block scalars (`|`, which
keeps exactly one trailing newline). Constructs outside that fragment are
rejected rather than guessed at. -/

/-- Collapse doubled single quotes inside a single-quoted scalar. -/
def undoubleQuotes : List Char → List Char
  | [] => []
  | [c] => [c]
  | c1 :: c2 :: rest =>
    if c1 = squote && c2 = squote then squote :: undoubleQuotes rest
    else c1 :: undoubleQuotes (c2 :: rest)

/-- A scalar token after `key: `. -/
def parseScalarToken (t : String) : Yaml :=
  if t = "" then .null
  else if t = "true" then .bool true
  else if t = "false" then .bool false
  else if t = "null" then .null
  else if strStartsWith t "\"" && strEndsWith t "\"" && t.length ≥ 2 then
    .str (String.mk ((t.data.drop 1).dropLast))
  else if strStartsWith t (String.mk [squote]) && strEndsWith t (String.mk [squote])
      && t.length ≥ 2 then
    .str (String.mk (undoubleQuotes ((t.data.drop 1).dropLast)))
  else
    match strToInt? t with
    | some n => .num n
    | none => .str t

/-- A mapping key token (single- or double-quoted keys are unquoted). -/
def parseKeyToken (t : String) : String :=
  if strStartsWith t (String.mk [squote]) && strEndsWith t (String.mk [squote])
      && t.length ≥ 2 then
    String.mk (undoubleQuotes ((t.data.drop 1).dropLast))
  else if strStartsWith t "\"" && strEndsWith t "\"" && t.length ≥ 2 then
    String.mk ((t.data.drop 1).dropLast)
  else t

/-- Split a mapping line at its first colon; the value part is
left-trimmed. -/
def splitAtColon (text : String) : Option (String × String) :=
  let before := text.data.takeWhile (fun c => c ≠ ':')
  match text.data.dropWhile (fun c => c ≠ ':') with
  | _ :: restc => some (String.mk before, String.mk (restc.dropWhile (fun c => c = ' ')))
  | [] => none

/-- Parse a block mapping at the given indentation from pre-processed
(indent, text) lines; returns the entries and the unconsumed lines. -/
def parseBlockLines (fuel : Nat) (lines : List (Nat × String)) (indent : Nat) :
    Except String (List (String × Yaml) × List (Nat × String)) :=
  match fuel with
  | 0 => .error "yaml-subset: out of fuel"
  | fuel + 1 =>
    match lines with
    | [] => .ok ([], [])
    | (ind, text) :: rest =>
      if ind < indent then .ok ([], (ind, text) :: rest)
      else if indent < ind then .error "yaml-subset: bad indentation"
      else if strStartsWith text "- " || text = "-" then
        .error "yaml-subset: sequences not modelled"
      else
        match splitAtColon text with
        | none => .error "yaml-subset: not a mapping line"
        | some (keyTok, valTok) =>
          let key := parseKeyToken keyTok
          if valTok = "" then
            match rest with
            | (ind2, t2) :: _ =>
              if ind < ind2 then do
                let child ← parseBlockLines fuel rest ind2
                let tail ← parseBlockLines fuel child.2 indent
                .ok ((key, Yaml.map child.1) :: tail.1, tail.2)
              else do
                let tail ← parseBlockLines fuel ((ind2, t2) :: (rest.drop 1)) indent
                .ok ((key, Yaml.null) :: tail.1, tail.2)
            | [] => .ok ([(key, Yaml.null)], [])
          else if valTok = "|" then
            let blockLines := rest.takeWhile (fun p => indent < p.1)
            let rem := rest.dropWhile (fun p => indent < p.1)
            let content := match blockLines with
              | [] => ""
              | (b, _) :: _ =>
                joinSep "\n" (blockLines.map (fun p => spaces (p.1 - b) ++ p.2))
                  ++ "\n"
            do
              let tail ← parseBlockLines fuel rem indent
              .ok ((key, Yaml.str content) :: tail.1, tail.2)
          else do
            let tail ← parseBlockLines fuel rest indent
            .ok ((key, parseScalarToken valTok) :: tail.1, tail.2)

/-- Pre-process raw text into (indent, left-trimmed text) lines, dropping
blank lines. -/
def yamlLines (content : String) : List (Nat × String) :=
  (charSplit '\n' content).filterMap (fun l =>
    let t := l.data.dropWhile (fun c => c = ' ')
    if t.isEmpty then none
    else some (l.length - t.length, String.mk t))

/-- The modelled `yaml.parse` on the serializer's output fragment. -/
def parseYamlSubset (content : String) : Except String Yaml :=
  match yamlLines content with
  | [] => .ok .null
  | lines => do
    let r ← parseBlockLines ((lines.length + 2) * (lines.length + 2)) lines 0
    match r.2 with
    | [] => .ok (.map r.1)
    | _ => .error "yaml-subset: trailing lines"

/-! ## Validator (`src/utils/openApiValidator.ts`) -/

/-- Diagnostic severity. -/
inductive Severity where
  | error : Severity
  | warning : Severity
  deriving Repr, DecidableEq

/-- A validator diagnostic (`ValidationError` in `types/validation`). -/
structure ValidationError where
  path : String
  message : String
  severity : Severity
  line : Option Nat := none
  deriving Repr, DecidableEq

/-- The validator's result record. -/
structure ValidationResult where
  isValid : Bool
  errors : List ValidationError
  warnings : List ValidationError
  deriving Repr, DecidableEq

/-- Is `c` one of the quote characters of the locator's key pattern. -/
def isQuoteChar (c : Char) : Bool := c = squote || c = '"'

/-- JS `\s` on a single line (the locator splits on newlines first). -/
def jsWs (c : Char) : Bool :=
  c = ' ' || c = '\t' || c = '\r' || c = Char.ofNat 11 || c = Char.ofNat 12

/-- `\s*:` after the key (and optional closing quote). -/
def wsColon : List Char → Bool
  | [] => false
  | c :: t => if c = ':' then true else if jsWs c then wsColon t else false

/-- What may follow the key in `^['"]?<key>['"]?\s*:`. -/
def restKeyMatch (l : List Char) : Bool :=
  (match l with
   | c :: t => isQuoteChar c && wsColon t
   | [] => false)
  || wsColon l

/-- The test of the locator's line pattern `^['"]?<key>['"]?\s*:` (the key
itself is escaped, hence literal). -/
def keyPatternTest (trimmed : String) (key : String) : Bool :=
  (key.data.isPrefixOf trimmed.data && restKeyMatch (trimmed.data.drop key.length))
  || (match trimmed.data with
      | c :: t => isQuoteChar c && key.data.isPrefixOf t && restKeyMatch (t.drop key.length)
      | [] => false)

/-- The scan loop of `findLineNumber` (lines 272-292). -/
def findLineAux (path : List String) : List String → Nat → Nat → Nat → Option Nat
  | [], _, _, _ => none
  | line :: rest, i, curInd, pIdx =>
    let trimmedLine := String.mk (line.data.dropWhile (fun c => c.isWhitespace))
    let lineIndent := line.length - trimmedLine.length
    if trimmedLine = "" || strStartsWith trimmedLine "#" then
      findLineAux path rest (i + 1) curInd pIdx
    else
      let searchKey := path.getD pIdx ""
      if keyPatternTest trimmedLine searchKey && curInd ≤ lineIndent then
        if path.length ≤ pIdx + 1 then some (i + 1)
        else findLineAux path rest (i + 1) lineIndent (pIdx + 1)
      else findLineAux path rest (i + 1) curInd pIdx

/-- `findLineNumber` (lines 265-295). -/
def findLineNumber (yamlContent : String) (path : Option (List String)) : Option Nat :=
  match path with
  | none => none
  | some p =>
    if p.isEmpty then none
    else findLineAux p (charSplit '\n' yamlContent) 0 0 0

/-- Strict string equality `v === s` after a property access. -/
def yamlIsStr (o : Option Yaml) (s : String) : Bool :=
  match o with
  | some (.str s2) => s2 == s
  | _ => false

/-- `validateSchemas` (lines 220-260); it performs no method calls on cast
values and cannot throw. -/
def validateSchemasV (schemas : Yaml) (yamlContent : String) : List ValidationError :=
  (jsEntries schemas).flatMap (fun kv =>
    let schemaName := kv.fst
    let s := kv.snd
    if yamlTruthy s && isObjLike s then
      (if !(yamlTruthyOpt (jsGet s "type")) && !(yamlTruthyOpt (jsGet s "$ref"))
          && !(yamlTruthyOpt (jsGet s "allOf")) && !(yamlTruthyOpt (jsGet s "oneOf"))
          && !(yamlTruthyOpt (jsGet s "anyOf")) then
        [{ path := "components.schemas." ++ schemaName
           message := "Schema \"" ++ schemaName
             ++ "\" should have a \"type\" field or use $ref/allOf/oneOf/anyOf"
           severity := .warning
           line := findLineNumber yamlContent (some ["components", "schemas", schemaName]) }]
       else [])
      ++ (if yamlIsStr (jsGet s "type") "object" && !(yamlTruthyOpt (jsGet s "properties"))
          && !(yamlTruthyOpt (jsGet s "additionalProperties")) then
        [{ path := "components.schemas." ++ schemaName
           message := "Object schema \"" ++ schemaName
             ++ "\" should have \"properties\" or \"additionalProperties\" defined"
           severity := .warning
           line := findLineNumber yamlContent (some ["components", "schemas", schemaName]) }]
       else [])
      ++ (if yamlIsStr (jsGet s "type") "array" && !(yamlTruthyOpt (jsGet s "items")) then
        [{ path := "components.schemas." ++ schemaName ++ ".items"
           message := "Array schema \"" ++ schemaName ++ "\" must have \"items\" defined"
           severity := .error
           line := findLineNumber yamlContent (some ["components", "schemas", schemaName]) }]
       else [])
    else [])

/-- The verb order scanned by `validatePaths` (line 171). -/
def validatorMethods : List String :=
  ["get", "post", "put", "patch", "delete", "options", "head", "trace"]

/-- `parameters.some(p => p.name === paramName && p.in === 'path')`:
short-circuiting, throwing on a `null` element. -/
def jsSomeParamMatch (params : List Yaml) (paramName : String) : Except String Bool :=
  match params with
  | [] => .ok false
  | p :: rest =>
    match p with
    | .null => .error "TypeError"
    | _ =>
      if yamlIsStr (jsGet p "name") paramName && yamlIsStr (jsGet p "in") "path" then
        .ok true
      else jsSomeParamMatch rest paramName

/-- `(operation.parameters || []) as Array<...>` followed by `.some`:
a truthy non-array receiver throws. -/
def paramsArrayOf (o : Option Yaml) : Except String (List Yaml) :=
  match o with
  | none => .ok []
  | some v =>
    if yamlTruthy v then
      match v with
      | .seq l => .ok l
      | _ => .error "TypeError"
    else .ok []

/-- One step of the per-placeholder check (lines 197-210): a placeholder
without a matching `in: path` parameter yields an error. -/
def paramErrStep (pathKey op yamlContent : String) (params : List Yaml)
    (acc3 : List ValidationError) (paramName : String) :
    Except String (List ValidationError) := do
  let isDefined ← jsSomeParamMatch params paramName
  if !isDefined then
    pure (acc3 ++
      [{ path := "paths." ++ pathKey ++ "." ++ op ++ ".parameters"
         message := "Path parameter \"" ++ paramName
           ++ "\" is used in path but not defined in parameters"
         severity := Severity.error
         line := findLineNumber yamlContent
           (some ["paths", pathKey, op, "parameters"]) }])
  else pure acc3

/-- One step of the per-verb check (lines 172-212). -/
def validateOpStep (pathKey : String) (pathItem : Yaml) (pathParams : List String)
    (yamlContent : String) (acc2 : List ValidationError) (op : String) :
    Except String (List ValidationError) := do
  match jsGet pathItem op with
  | some operation =>
    if yamlTruthy operation then do
      let e1 := if !(yamlTruthyOpt (jsGet operation "operationId")) then
        [{ path := "paths." ++ pathKey ++ "." ++ op ++ ".operationId"
           message := "Operation \"" ++ strToUpper op ++ " " ++ pathKey
             ++ "\" is missing operationId"
           severity := Severity.warning
           line := findLineNumber yamlContent (some ["paths", pathKey, op]) }]
        else []
      let e2 := if !(yamlTruthyOpt (jsGet operation "responses"))
          || (match jsGet operation "responses" with
              | some rv => (jsEntries rv).isEmpty
              | none => true) then
        [{ path := "paths." ++ pathKey ++ "." ++ op ++ ".responses"
           message := "Operation \"" ++ strToUpper op ++ " " ++ pathKey
             ++ "\" must have at least one response defined"
           severity := Severity.error
           line := findLineNumber yamlContent (some ["paths", pathKey, op]) }]
        else []
      let params ← paramsArrayOf (jsGet operation "parameters")
      let paramErrs ← pathParams.foldlM (paramErrStep pathKey op yamlContent params) []
      pure (acc2 ++ e1 ++ e2 ++ paramErrs)
    else pure acc2
  | none => pure acc2

/-- One step of the per-path-entry loop (lines 157-214). -/
def validatePathStep (yamlContent : String) (acc : List ValidationError)
    (kv : String × Yaml) : Except String (List ValidationError) := do
  let pathKey := kv.fst
  let pathItem := kv.snd
  let slashErrs := if !(strStartsWith pathKey "/") then
    [{ path := "paths." ++ pathKey
       message := "Path \"" ++ pathKey ++ "\" must start with a forward slash (/)"
       severity := Severity.error
       line := findLineNumber yamlContent (some ["paths", pathKey]) }]
    else []
  let pathParams := extractPathParameters pathKey
  let opErrs ← (if !pathParams.isEmpty && yamlTruthy pathItem && isObjLike pathItem then
      validatorMethods.foldlM (validateOpStep pathKey pathItem pathParams yamlContent) []
    else pure [])
  pure (acc ++ slashErrs ++ opErrs)

/-- `validatePaths` (lines 152-215). Note the source only inspects
operations when the path key has at least one `{placeholder}`. -/
def validatePathsV (paths : Yaml) (yamlContent : String) :
    Except String (List ValidationError) :=
  (jsEntries paths).foldlM (validatePathStep yamlContent) []

/-- The diagnostic for a missing `openapi` field (lines 81-87). -/
def missingOpenapiErr : ValidationError :=
  { path := "openapi"
    message := "Missing required field \"openapi\". Must specify OpenAPI version (e.g., \"3.0.3\" or \"3.1.0\")"
    severity := Severity.error
    line := some 1 }

/-- The `openapi` checks of `performStructuralValidation` (lines 81-98). -/
def openapiErrsOf (spec : Yaml) (yamlContent : String) : List ValidationError :=
  match jsGet spec "openapi" with
  | some v =>
    if yamlTruthy v then
      let version := yamlAsString v
      if !(strStartsWith version "3.0") && !(strStartsWith version "3.1") then
        [{ path := "openapi"
           message := "Invalid OpenAPI version \"" ++ version ++ "\". Must be 3.0.x or 3.1.x"
           severity := Severity.error
           line := findLineNumber yamlContent (some ["openapi"]) }]
      else []
    else [missingOpenapiErr]
  | none => [missingOpenapiErr]

/-- The `info` checks (lines 100-124). -/
def infoErrsOf (spec : Yaml) (yamlContent : String) : List ValidationError :=
  match jsGet spec "info" with
  | some iv =>
    if yamlTruthy iv then
      (if !(yamlTruthyOpt (jsGet iv "title")) then
        [{ path := "info.title", message := "Missing required field \"info.title\""
           severity := Severity.error
           line := findLineNumber yamlContent (some ["info", "title"]) }]
       else [])
      ++ (if !(yamlTruthyOpt (jsGet iv "version")) then
        [{ path := "info.version", message := "Missing required field \"info.version\""
           severity := Severity.error
           line := findLineNumber yamlContent (some ["info", "version"]) }]
       else [])
    else
      [{ path := "info", message := "Missing required field \"info\""
         severity := Severity.error }]
  | none =>
    [{ path := "info", message := "Missing required field \"info\""
       severity := Severity.error }]

/-- The `paths` checks (lines 127-136). -/
def pathsErrsOf (spec : Yaml) (yamlContent : String) :
    Except String (List ValidationError) :=
  match jsGet spec "paths" with
  | some pv =>
    if yamlTruthy pv then validatePathsV pv yamlContent
    else pure [{ path := "paths"
                 message := "Missing \"paths\" object. At least an empty paths object is recommended"
                 severity := Severity.warning }]
  | none => pure [{ path := "paths"
                    message := "Missing \"paths\" object. At least an empty paths object is recommended"
                    severity := Severity.warning }]

/-- The `components.schemas` checks (lines 139-144). -/
def schemaErrsOf (spec : Yaml) (yamlContent : String) : List ValidationError :=
  match jsGet spec "components" with
  | some cv =>
    if yamlTruthy cv then
      match jsGet cv "schemas" with
      | some sv => if yamlTruthy sv then validateSchemasV sv yamlContent else []
      | none => []
    else []
  | none => []

/-- `performStructuralValidation` (lines 74-147). -/
def performStructuralValidation (spec : Yaml) (yamlContent : String) :
    Except String (List ValidationError) := do
  let pathsErrs ← pathsErrsOf spec yamlContent
  pure (openapiErrsOf spec yamlContent ++ infoErrsOf spec yamlContent
    ++ pathsErrs ++ schemaErrsOf spec yamlContent)

/-- The outcome of the external `@readme/openapi-parser` full-spec check
(not part of this repository): success, a thrown error carrying a
structured `details` list, or a thrown error without one. -/
inductive ExternalOutcome where
  | ok : ExternalOutcome
  | failDetails : List (List String × String) → ExternalOutcome
  | failUnstructured : String → ExternalOutcome

/-- `validateOpenApiSpec` (lines 8-69), over the outcome of the external
`yaml.parse` call and the external full-spec validator. -/
def validateOpenApiSpec (parseResult : Except String Yaml) (yamlContent : String)
    (external : ExternalOutcome) : Except String ValidationResult :=
  match parseResult with
  | .error msg =>
    .ok { isValid := false
          errors := [{ path := "document", message := "YAML Parse Error: " ++ msg
                       severity := Severity.error }]
          warnings := [] }
  | .ok parsedSpec =>
    if !(yamlTruthy parsedSpec && isObjLike parsedSpec) then
      .ok { isValid := false
            errors := [{ path := "document"
                         message := "Invalid OpenAPI document: must be an object"
                         severity := Severity.error }]
            warnings := [] }
    else do
      let structuralErrors ← performStructuralValidation parsedSpec yamlContent
      let errors0 := structuralErrors.filter (fun e => e.severity == Severity.error)
      let warnings := structuralErrors.filter (fun e => e.severity == Severity.warning)
      let extErrors := match external with
        | .ok => []
        | .failDetails ds => ds.map (fun pm =>
            { path := if pm.1.isEmpty then "unknown" else joinSep "." pm.1
              message := pm.2
              severity := Severity.error
              line := findLineNumber yamlContent (some pm.1) })
        | .failUnstructured m =>
          [{ path := "document"
             message := if m = "" then "Unknown validation error" else m
             severity := Severity.error }]
      .ok { isValid := (errors0 ++ extErrors).isEmpty
            errors := errors0 ++ extErrors
            warnings := warnings }

/-! ## Concrete instances used by the claim theorems and their witnesses -/

/-- A minimal supported document with a multi-line info description. -/
def roundTripCounterexampleDoc : SwaggerDocument :=
  { openapi := "3.0.0"
    info := { title := "T", description := "a\nb", version := "1.0.0" }
    servers := [], securitySchemes := [], tags := [], paths := [], schemas := [] }

/-- A parsed document whose only operation carries `security: []`. -/
def secEmptyDoc : Yaml :=
  Yaml.map [("openapi", Yaml.str "3.0.0"),
    ("info", Yaml.map [("title", Yaml.str "T"), ("version", Yaml.str "1")]),
    ("paths", Yaml.map [("/a", Yaml.map [("get",
      Yaml.map [("security", Yaml.seq [])])])])]

/-- The same parsed document with no `security` key at all. -/
def secAbsentDoc : Yaml :=
  Yaml.map [("openapi", Yaml.str "3.0.0"),
    ("info", Yaml.map [("title", Yaml.str "T"), ("version", Yaml.str "1")]),
    ("paths", Yaml.map [("/a", Yaml.map [("get", Yaml.map [])])])]

/-- A sample operation (used to populate fully-booked paths). -/
def sampleOp (m : String) : PathOperation :=
  { method := m, tags := [], summary := "", operationId := "op_" ++ m
    description := "", parameters := [], responses := [] }

/-- A path on which every one of the five duplicable methods is in use. -/
def pAllUsed : SwaggerPath :=
  { path := "/p"
    operations := [sampleOp "get", sampleOp "post", sampleOp "put",
      sampleOp "patch", sampleOp "delete"] }

/-- A document holding only that fully-booked path. -/
def docAllUsed : SwaggerDocument :=
  { openapi := "3.0.0"
    info := { title := "", description := "", version := "1.0.0" }
    servers := [], securitySchemes := [], tags := [], paths := [pAllUsed], schemas := [] }

/-- A path with a single `get` operation. -/
def pOneOp : SwaggerPath := { path := "/q", operations := [sampleOp "get"] }

/-- A document holding only that single-operation path. -/
def docOneOp : SwaggerDocument :=
  { openapi := "3.0.0"
    info := { title := "", description := "", version := "1.0.0" }
    servers := [], securitySchemes := [], tags := [], paths := [pOneOp], schemas := [] }

/-- The structural diagnostics of the empty-object document. -/
def structErrsEmptyObj : List ValidationError :=
  [{ path := "openapi"
     message := "Missing required field \"openapi\". Must specify OpenAPI version (e.g., \"3.0.3\" or \"3.1.0\")"
     severity := Severity.error, line := some 1 },
   { path := "info", message := "Missing required field \"info\""
     severity := Severity.error },
   { path := "paths"
     message := "Missing \"paths\" object. At least an empty paths object is recommended"
     severity := Severity.warning }]

/-! # Theorems -/

/-! ### Synchronizer lemmas -/

/-- Finding by name in a list of freshly created parameters is finding the
name itself. -/
theorem find?_map_defaultPathParam (l : List String) (n : String) :
    (l.map defaultPathParam).find? (fun p => p.name == n)
      = (l.find? (fun m => m == n)).map defaultPathParam := by
  induction l with
  | nil => rfl
  | cons a t ih =>
    by_cases h : a = n
    · subst h
      simp [List.find?_cons, defaultPathParam]
    · simp only [List.map_cons, List.find?_cons, defaultPathParam]
      have hb : (a == n) = false := by simp [h]
      simp only [hb, cond_false]
      exact ih

/-- Finding the first element equal to a contained name yields the name. -/
theorem find?_beq_self (l : List String) (n : String) (h : n ∈ l) :
    l.find? (fun m => m == n) = some n := by
  induction l with
  | nil => simp at h
  | cons a t ih =>
    by_cases ha : a = n
    · subst ha
      simp [List.find?_cons]
    · have hb : (a == n) = false := by simp [ha]
      simp only [List.find?_cons, hb]
      apply ih
      rcases List.mem_cons.mp h with h1 | h1
      · exact absurd h1.symm ha
      · exact h1

/-- Restricting the search to the pre-filtered "existing path parameters"
list does not change the first hit, for any detected name. -/
theorem find?_filter_existing (cur : List PathParameter) (detected : List String)
    (n : String) (hn : n ∈ detected) :
    (cur.filter (fun p => p.paramIn == "path" && detected.contains p.name)).find?
        (fun p => p.name == n)
      = cur.find? (fun p => p.paramIn == "path" && p.name == n) := by
  induction cur with
  | nil => rfl
  | cons p t ih =>
    rw [List.filter_cons]
    cases hk : (p.paramIn == "path" && detected.contains p.name) with
    | true =>
      rw [if_pos rfl, List.find?_cons, List.find?_cons]
      have hp1 : (p.paramIn == "path") = true := ((Bool.and_eq_true _ _).mp hk).1
      cases hpn : (p.name == n) with
      | true => simp [hp1, hpn]
      | false =>
        simp only [hp1, hpn, Bool.true_and]
        exact ih
    | false =>
      rw [if_neg (by simp), List.find?_cons]
      have hp2 : (p.paramIn == "path" && p.name == n) = false := by
        cases hp1 : (p.paramIn == "path") with
        | false => simp [hp1]
        | true =>
          cases hpn : (p.name == n) with
          | false => simp [hpn]
          | true =>
            exfalso
            have hpn' : p.name = n := by simpa using hpn
            rw [hp1, Bool.true_and, hpn'] at hk
            have : detected.contains n = true := by simp [hn]
            rw [this] at hk
            simp at hk
      simp only [hp2]
      exact ih

/-- Mapping then dropping `none`s is mapping, when no entry is `none`. -/
theorem filterMap_id_map (f : String → Option PathParameter) (g : String → PathParameter)
    (l : List String) (h : ∀ n ∈ l, f n = some (g n)) :
    (l.map f).filterMap id = l.map g := by
  induction l with
  | nil => rfl
  | cons a t ih =>
    have ha : f a = some (g a) := h a (by simp)
    simp only [List.map_cons, List.filterMap_cons, ha, id]
    rw [ih (fun n hn => h n (by simp [hn]))]

/-- The synchronizer agrees with its specification-side description on
every input. -/
theorem syncPathParameters_eq_syncSpec (cur : List PathParameter) (path : String) :
    syncPathParameters cur path = syncSpec cur path := by
  simp only [syncPathParameters, syncSpec]
  congr 1
  apply filterMap_id_map
  intro n hn
  cases hfind : cur.find? (fun p => p.paramIn == "path" && p.name == n) with
  | some q =>
    rw [find?_filter_existing cur _ n hn, hfind]
    simp [Option.orElse]
  | none =>
    rw [find?_filter_existing cur _ n hn, hfind]
    simp only [Option.orElse, Option.getD]
    rw [find?_map_defaultPathParam]
    have hnames : (((cur.filter (fun p => p.paramIn == "path" &&
        (extractPathParameters path).contains p.name)).map
          (fun p => p.name)).contains n) = false := by
      by_contra hc
      rw [Bool.not_eq_false] at hc
      rw [List.contains_iff_exists_mem_beq] at hc
      obtain ⟨m, hm, hmn⟩ := hc
      have hnm : n = m := by simpa using hmn
      subst hnm
      obtain ⟨p, hp, hpn⟩ := List.mem_map.mp hm
      obtain ⟨hpc, hpd⟩ := List.mem_filter.mp hp
      have hsome : (cur.find? (fun p => p.paramIn == "path" && p.name == n)).isSome := by
        refine List.find?_isSome.mpr ⟨p, hpc, ?_⟩
        rw [Bool.and_eq_true] at hpd ⊢
        exact ⟨hpd.1, by simp [hpn]⟩
      rw [hfind] at hsome
      simp at hsome
    have hmem : n ∈ (extractPathParameters path).filter
        (fun m => !(((cur.filter (fun p => p.paramIn == "path" &&
          (extractPathParameters path).contains p.name)).map
            (fun p => p.name)).contains m)) := by
      rw [List.mem_filter]
      refine ⟨hn, ?_⟩
      show (!(((cur.filter (fun p => p.paramIn == "path" &&
        (extractPathParameters path).contains p.name)).map
          (fun p => p.name)).contains n)) = true
      rw [hnames]
      rfl
    rw [find?_beq_self _ n hmem]
    rfl

/-- C4: For every parameter list and path template, `syncPathParameters`
returns the path-location parameters in the order their placeholders appear
in the template (preserving existing path parameters whose name still
occurs, appending fresh required string-typed ones with empty description
for new placeholders, dropping path-location parameters whose name no
longer occurs), followed by all non-path-location parameters unchanged in
their original relative order; and `sync([], "/a/{x}/{y}")` yields exactly
the two fresh required string-typed path parameters named x then y. -/
theorem claim_C4_syncPathParameters :
    (∀ (cur : List PathParameter) (path : String),
      syncPathParameters cur path = syncSpec cur path)
    ∧ syncPathParameters [] "/a/\x7bx\x7d/\x7by\x7d"
        = [defaultPathParam "x", defaultPathParam "y"] :=
  ⟨syncPathParameters_eq_syncSpec, by decide⟩

/-- C5 counterexample: the generator does not lower-case the method it is
given; at method "GET" the claimed output "getHealth" is not produced. -/
theorem claim_C5_counterexample :
    generateOperationId "GET" "/health" = "GETHealth"
    ∧ generateOperationId "GET" "/health" ≠ "getHealth" := by
  exact ⟨rfl, by decide⟩

/-- C5 (amended): `generateOperationId` returns the method string exactly
as passed (the repository always passes lower-case method names), followed
by the last nonempty non-placeholder segment of the template with its
hyphen-delimited words first-letter-capitalised and concatenated; a
template with no such segment yields the bare method string; in particular
the two worked examples hold. -/
theorem claim_C5_generateOperationId :
    (∀ (method pathStr : String),
      generateOperationId method pathStr = method ++ camelSegment (lastGoodSegment pathStr))
    ∧ (∀ (method pathStr : String), lastGoodSegment pathStr = "" →
        generateOperationId method pathStr = method)
    ∧ generateOperationId "get" "/contract-accounts/\x7bid\x7d/payment-plans"
        = "getPaymentPlans"
    ∧ generateOperationId "post" "/health" = "postHealth" := by
  refine ⟨fun method pathStr => rfl, fun method pathStr h => ?_, by decide, by decide⟩
  have h1 : generateOperationId method pathStr
      = method ++ camelSegment (lastGoodSegment pathStr) := rfl
  rw [h1, h]
  show method ++ "" = method
  exact String.append_empty method

/-- C5 witness: a placeholder-only template at a concrete input. -/
theorem claim_C5_witness :
    lastGoodSegment "/\x7bid\x7d" = "" ∧ generateOperationId "get" "/\x7bid\x7d" = "get" :=
  ⟨by decide, claim_C5_generateOperationId.2.1 "get" "/\x7bid\x7d" (by decide)⟩

/-- C3: the serializer's string formatter emits a string containing a
newline as a literal block scalar (`|` followed by every line indented to
the field's indent level), a single-line non-empty string single-quoted
with each internal single quote doubled, and the empty string as `''`;
in particular `It's fine` becomes `'It''s fine'`. -/
theorem claim_C3_formatDescription :
    (∀ (d : String) (i : Nat), d = "" → formatDescription d i = "\x27\x27")
    ∧ (∀ (d : String) (i : Nat), strContainsChar d '\n' = true →
        formatDescription d i = "|\n" ++ joinSep "\n"
          ((charSplit '\n' d).map (fun line => spaces i ++ line)))
    ∧ (∀ (d : String) (i : Nat), d ≠ "" → strContainsChar d '\n' = false →
        formatDescription d i = String.mk (squote :: replaceQuotes d.data ++ [squote]))
    ∧ formatDescription "It\x27s fine" 0 = "\x27It\x27\x27s fine\x27" := by
  refine ⟨?_, ?_, ?_, by decide⟩
  · intro d i hd
    rw [formatDescription, if_pos hd]
  · intro d i hc
    have hd : d ≠ "" := by
      intro he
      subst he
      exact absurd hc (by decide)
    rw [formatDescription, if_neg hd, if_pos hc]
  · intro d i hd hc
    rw [formatDescription, if_neg hd, if_neg (by simp [hc])]

/-- C3 witness: the three branches at concrete inputs. -/
theorem claim_C3_witness :
    formatDescription "a\nb" 4 = "|\n    a\n    b"
    ∧ formatDescription "x" 2 = "\x27x\x27"
    ∧ formatDescription "" 9 = "\x27\x27" := by
  refine ⟨?_, ?_, ?_⟩
  · rw [claim_C3_formatDescription.2.1 "a\nb" 4 (by decide)]
    decide
  · rw [claim_C3_formatDescription.2.2.1 "x" 2 (by decide) (by decide)]
    decide
  · exact claim_C3_formatDescription.1 "" 9 rfl

/-- C7 counterexample: a ref string that is not of the exact
`#/components/schemas/<Name>` shape (it has a prefix before the marker)
is not mapped to the empty reference, contradicting the claim's second
half. -/
theorem claim_C7_counterexample :
    extractSchemaRef "x#/components/schemas/Bar" = "Bar"
    ∧ extractSchemaRef "x#/components/schemas/Bar" ≠ "" := by
  exact ⟨by decide, by decide⟩

/-- Unfolding of `refMatch` at a nonempty list. -/
theorem refMatch_cons (c : Char) (rest : List Char) :
    refMatch (c :: rest) =
      (if schemasMarker.isPrefixOf (c :: rest) then
        (if (((c :: rest).drop schemasMarker.length).takeWhile isRegexDotChar).isEmpty then
          refMatch rest
         else some (((c :: rest).drop schemasMarker.length).takeWhile isRegexDotChar))
       else refMatch rest) := rfl

/-- When the marker is a prefix and at least one capturable character
follows, the match is the greedy capture at position zero. -/
theorem refMatch_at_marker (l : List Char)
    (hpre : schemasMarker.isPrefixOf l = true)
    (hcap : (l.drop schemasMarker.length).takeWhile isRegexDotChar ≠ []) :
    refMatch l = some ((l.drop schemasMarker.length).takeWhile isRegexDotChar) := by
  cases l with
  | nil => exact absurd hpre (by decide)
  | cons c rest =>
    rw [refMatch_cons, if_pos hpre,
      if_neg (by simpa [List.isEmpty_iff] using hcap)]

/-- When the marker occurs nowhere in the list, there is no match. -/
theorem refMatch_of_not_infix (l : List Char) (h : ¬ (schemasMarker <:+: l)) :
    refMatch l = none := by
  induction l with
  | nil => rfl
  | cons c rest ih =>
    rw [refMatch_cons]
    rw [if_neg (fun hpre =>
      h (List.IsPrefix.isInfix (List.isPrefixOf_iff_prefix.mp hpre)))]
    exact ih (fun hin => h (List.infix_cons hin))

/-- C7 (amended): `extractSchemaRef` maps every string of the exact form
`#/components/schemas/<Name>` (`<Name>` nonempty without line
terminators) to `<Name>`, and maps every string in which the marker
`#/components/schemas/` occurs nowhere to the empty reference; but a ref
string that merely contains the marker elsewhere (for example with junk
before the `#`) is mapped to what follows the marker rather than to the
empty reference. -/
theorem claim_C7_extractSchemaRef :
    (∀ name : String, name ≠ "" →
      (∀ c ∈ name.data, isRegexDotChar c = true) →
      extractSchemaRef ("#/components/schemas/" ++ name) = name)
    ∧ (∀ s : String, ¬ (schemasMarker <:+: s.data) → extractSchemaRef s = "")
    ∧ extractSchemaRef "x#/components/schemas/Bar" = "Bar" := by
  refine ⟨?_, ?_, by decide⟩
  · intro name hne hdot
    have hdata : ("#/components/schemas/" ++ name).data = schemasMarker ++ name.data := rfl
    have hne' : ("#/components/schemas/" ++ name) ≠ "" := by
      intro he
      have : ("#/components/schemas/" ++ name).data = [] := by rw [he]
      rw [hdata] at this
      simp [schemasMarker] at this
    rw [extractSchemaRef, if_neg hne', hdata]
    have hdrop : (schemasMarker ++ name.data).drop schemasMarker.length = name.data :=
      List.drop_left _ _
    have htake : (name.data).takeWhile isRegexDotChar = name.data :=
      List.takeWhile_eq_self_iff.mpr hdot
    have hnd : name.data ≠ [] := by
      intro he
      apply hne
      cases name
      simp only at he
      rw [he]
    rw [refMatch_at_marker _
      (List.isPrefixOf_iff_prefix.mpr (List.prefix_append _ _))
      (by rw [hdrop, htake]; exact hnd)]
    rw [hdrop, htake]
  · intro s h
    by_cases hse : s = ""
    · rw [extractSchemaRef, if_pos hse]
    · rw [extractSchemaRef, if_neg hse, refMatch_of_not_infix _ h]

/-- C7 witness: the exact form and a marker-free parameters ref. -/
theorem claim_C7_witness :
    extractSchemaRef ("#/components/schemas/" ++ "PaymentPlan") = "PaymentPlan"
    ∧ extractSchemaRef "#/components/parameters/Foo" = "" := by
  constructor
  · exact claim_C7_extractSchemaRef.1 "PaymentPlan" (by decide) (by decide)
  · exact claim_C7_extractSchemaRef.2.1 "#/components/parameters/Foo" (by decide)

/-- Per-path idempotence of the hooks migration step. -/
theorem migratePath_idem (p : RawPath) : migratePath (migratePath p) = migratePath p := by
  cases hops : p.operations with
  | some ops => simp [migratePath, hops]
  | none =>
    cases hm : p.method with
    | none => simp [migratePath, hops, hm]
    | some m =>
      by_cases hme : m = ""
      · simp [migratePath, hops, hm, hme]
      · simp [migratePath, hops, hm, hme]

/-- Per-path idempotence of the generator migration step. -/
theorem ensureOperationsFormatPath_idem (p : RawPath) :
    ensureOperationsFormatPath (ensureOperationsFormatPath p) = ensureOperationsFormatPath p := by
  cases hops : p.operations with
  | some ops => simp [ensureOperationsFormatPath, hops]
  | none =>
    cases hm : p.method with
    | none => simp [ensureOperationsFormatPath, hops, hm]
    | some m =>
      by_cases hme : m = ""
      · simp [ensureOperationsFormatPath, hops, hm, hme]
      · simp [ensureOperationsFormatPath, hops, hm, hme]

/-- C6: the legacy-format migration is idempotent on every document (for
both copies of it, the hooks' `migrateDocument` and the generator's
`ensureOperationsFormat`); a flat-legacy path (a nonempty string `method`
field, no `operations` array) is wrapped into a single-element operations
list; a path already carrying an `operations` array passes through
unchanged. -/
theorem claim_C6_migration_idempotent :
    (∀ d : RawDocument, migrateDocument (migrateDocument d) = migrateDocument d)
    ∧ (∀ d : RawDocument,
        ensureOperationsFormat (ensureOperationsFormat d) = ensureOperationsFormat d)
    ∧ (∀ (p : RawPath) (ops : List PathOperation),
        p.operations = some ops → migratePath p = p)
    ∧ (∀ (p : RawPath) (m : String), p.operations = none → p.method = some m → m ≠ "" →
        migratePath p = { path := p.path, operations := some [legacyOperationOf p m] }) := by
  refine ⟨?_, ?_, ?_, ?_⟩
  · intro d
    unfold migrateDocument
    simp only [List.map_map]
    rw [show migratePath ∘ migratePath = migratePath from funext migratePath_idem]
  · intro d
    unfold ensureOperationsFormat
    simp only [List.map_map]
    rw [show ensureOperationsFormatPath ∘ ensureOperationsFormatPath = ensureOperationsFormatPath
      from funext ensureOperationsFormatPath_idem]
  · intro p ops hops
    simp [migratePath, hops]
  · intro p m hops hm hme
    simp [migratePath, hops, hm, hme]

/-- C6 witness: both migration shapes at concrete paths. -/
theorem claim_C6_witness :
    migratePath { path := "/a", operations := some [] } = { path := "/a", operations := some [] }
    ∧ migratePath { path := "/b", method := some "get", summary := some "s" }
        = { path := "/b", operations :=
            some [legacyOperationOf { path := "/b", method := some "get", summary := some "s" }
              "get"] } := by
  constructor
  · exact claim_C6_migration_idempotent.2.2.1 _ [] rfl
  · exact claim_C6_migration_idempotent.2.2.2 _ "get" rfl rfl (by decide)

/-- C9: duplicating an operation of a path on which all five methods
{get, post, put, patch, delete} are used appends a new path whose template
is the original suffixed `_copy`, carrying only the cloned operation with
its operationId suffixed `_copy` (parameter and response lists copied by
value), while the original path — and hence its operation count — is left
unchanged at its index; when some method is unused, the clone is instead
appended to the same path under the first unused method with a freshly
generated operationId, and every other path is untouched. -/
theorem claim_C9_duplicatePath :
    ∀ (doc : SwaggerDocument) (i j : Nat) (path : SwaggerPath) (op : PathOperation),
      doc.paths.get? i = some path →
      path.operations.get? j = some op →
      ((∀ m ∈ availableMethods, m ∈ path.operations.map (fun o => o.method)) →
        duplicatePath doc i j = some { doc with paths := doc.paths ++
          [{ path := path.path ++ "_copy"
             operations := [{ op with operationId := op.operationId ++ "_copy" }] }] }
        ∧ ∀ d, duplicatePath doc i j = some d → d.paths.get? i = some path)
      ∧ (∀ m, availableMethods.find?
            (fun m2 => !((path.operations.map (fun o => o.method)).contains m2)) = some m →
          duplicatePath doc i j = some { doc with paths := (doc.paths.mapIdx (fun k p =>
            if k = i then { p with operations := p.operations ++
              [{ op with method := m, operationId := generateOperationId m path.path }] }
            else p)) }
          ∧ ∀ d, duplicatePath doc i j = some d →
              (d.paths.get? i = some { path with operations := path.operations ++
                [{ op with method := m, operationId := generateOperationId m path.path }] }
              ∧ ∀ k, k ≠ i → d.paths.get? k = doc.paths.get? k)) := by
  intro doc i j path op hpath hop
  have hilen : i < doc.paths.length := (List.get?_eq_some.mp hpath).1
  constructor
  · intro hall
    have hfind : availableMethods.find?
        (fun m2 => !((path.operations.map (fun o => o.method)).contains m2)) = none := by
      rw [List.find?_eq_none]
      intro m hm
      simp only [Bool.not_eq_true, Bool.not_eq_false]
      have hcont : (List.map (fun o => o.method) path.operations).contains m = true :=
        (List.contains_iff_exists_mem_beq).mpr ⟨m, hall m hm, by simp⟩
      rw [hcont]
      rfl
    have hdup : duplicatePath doc i j = some { doc with paths := doc.paths ++
        [{ path := path.path ++ "_copy"
           operations := [{ op with operationId := op.operationId ++ "_copy" }] }] } := by
      simp only [duplicatePath, hpath, hop, hfind]
    refine ⟨hdup, ?_⟩
    intro d hd
    rw [hdup] at hd
    cases hd
    show (doc.paths ++ _).get? i = some path
    rw [List.get?_append hilen]
    exact hpath
  · intro m hfind
    have hdup : duplicatePath doc i j = some { doc with paths := (doc.paths.mapIdx (fun k p =>
        if k = i then { p with operations := p.operations ++
          [{ op with method := m, operationId := generateOperationId m path.path }] }
        else p)) } := by
      simp only [duplicatePath, hpath, hop, hfind]
    refine ⟨hdup, ?_⟩
    intro d hd
    rw [hdup] at hd
    cases hd
    constructor
    · show ((doc.paths.mapIdx _).get? i) = _
      rw [List.get?_eq_getElem?, List.getElem?_mapIdx, ← List.get?_eq_getElem?, hpath]
      simp
    · intro k hk
      show ((doc.paths.mapIdx _).get? k) = _
      rw [List.get?_eq_getElem?, List.getElem?_mapIdx, ← List.get?_eq_getElem?]
      cases doc.paths.get? k with
      | none => rfl
      | some q =>
        simp only [Option.map_some']
        rw [if_neg hk]

/-- C9 witness: the fully-booked path gets a `_copy` path appended; the
single-operation path gets a fresh `post` clone appended to itself. -/
theorem claim_C9_witness :
    duplicatePath docAllUsed 0 0 = some { docAllUsed with paths := docAllUsed.paths ++
      [{ path := "/p" ++ "_copy"
         operations := [{ (sampleOp "get") with operationId := "op_get" ++ "_copy" }] }] }
    ∧ (duplicatePath docOneOp 0 0).map (fun d => d.paths.get? 0)
        = some (some { pOneOp with operations := pOneOp.operations ++
            [{ method := "post", tags := [], summary := ""
               operationId := generateOperationId "post" "/q", description := ""
               parameters := [], responses := [] }] }) := by
  constructor
  · exact ((claim_C9_duplicatePath docAllUsed 0 0 pAllUsed (sampleOp "get")
      rfl rfl).1 (by decide)).1
  · have h2 := (claim_C9_duplicatePath docOneOp 0 0 pOneOp (sampleOp "get")
      rfl rfl).2 "post" (by decide)
    have h3 := (h2.2 _ h2.1).1
    rw [h2.1]
    exact congrArg some h3

/-- Object-like parsed values are truthy. -/
theorem yamlTruthy_of_isObjLike (v : Yaml) (h : isObjLike v = true) :
    yamlTruthy v = true := by
  cases v <;> simp_all [isObjLike, yamlTruthy]

/-- An `Except`-valued left fold preserves any invariant its step
preserves. -/
theorem foldlM_except_inv {α β : Type} (f : β → α → Except String β) (P : β → Prop)
    (hf : ∀ b a b', P b → f b a = .ok b' → P b') :
    ∀ (l : List α) (b b' : β), P b → l.foldlM f b = .ok b' → P b' := by
  intro l
  induction l with
  | nil =>
    intro b b' hb h
    rw [List.foldlM_nil] at h
    simp only [pure, Except.pure, Except.ok.injEq] at h
    exact h ▸ hb
  | cons a t ih =>
    intro b b' hb h
    rw [List.foldlM_cons] at h
    simp only [bind, Except.bind] at h
    cases h1 : f b a with
    | error e => rw [h1] at h; simp at h
    | ok b2 =>
      rw [h1] at h
      exact ih b2 b' (hf b a b2 hb h1) h

/-- The security list a parsed operation stores is never the empty list. -/
theorem parseOneOperation_security (method : String) (operation : Yaml)
    (globalSec : Option Yaml) (op : PathOperation)
    (h : parseOneOperation method operation globalSec = .ok op) :
    op.security ≠ some [] := by
  rw [parseOneOperation] at h
  simp only [bind, Except.bind] at h
  cases h1 : effectiveSecurity operation globalSec with
  | error e => simp only [h1] at h; exact Except.noConfusion h
  | ok security =>
  simp only [h1] at h
  cases h2 : parseParametersJs (jsGet operation "parameters") with
  | error e => simp only [h2] at h; exact Except.noConfusion h
  | ok params =>
  simp only [h2] at h
  cases h3 : parseResponsesJs (jsGet operation "responses") with
  | error e => simp only [h3] at h; exact Except.noConfusion h
  | ok resps =>
  simp only [h3] at h
  cases h4 : parseRequestBodyJs (jsGet operation "requestBody") with
  | error e => simp only [h4] at h; exact Except.noConfusion h
  | ok rb =>
  simp only [h4, Except.ok.injEq] at h
  subst h
  show (if security.isEmpty then none else some security) ≠ some []
  cases hse : security.isEmpty with
  | true => simp
  | false =>
    simp only [hse, Bool.false_eq_true, if_false, ne_eq, Option.some.injEq]
    intro hc
    rw [hc] at hse
    simp at hse

/-- All operations a path item yields store non-empty-or-absent security. -/
theorem parsePathItem_security (pathItem : Yaml) (globalSec : Option Yaml)
    (ops : List PathOperation) (h : parsePathItem pathItem globalSec = .ok ops) :
    ∀ op ∈ ops, op.security ≠ some [] := by
  have hstep : ∀ (acc : List PathOperation) (method : String) (res : List PathOperation),
      (∀ op ∈ acc, op.security ≠ some []) →
      pathItemStep pathItem globalSec acc method = .ok res →
      ∀ op ∈ res, op.security ≠ some [] := by
    intro acc method res hacc hs
    rw [pathItemStep] at hs
    cases hg : jsGet pathItem method with
    | none =>
      simp only [hg, pure, Except.pure, Except.ok.injEq] at hs
      exact hs ▸ hacc
    | some v =>
      simp only [hg] at hs
      by_cases htr : yamlTruthy v = true
      · rw [if_pos htr] at hs
        simp only [bind, Except.bind] at hs
        cases hone : parseOneOperation method v globalSec with
        | error e => simp only [hone] at hs; exact Except.noConfusion hs
        | ok op1 =>
          simp only [hone, pure, Except.pure, Except.ok.injEq] at hs
          subst hs
          intro op hop
          rcases List.mem_append.mp hop with hmem | hmem
          · exact hacc op hmem
          · rw [List.mem_singleton.mp hmem]
            exact parseOneOperation_security method v globalSec op1 hone
      · rw [if_neg htr] at hs
        simp only [pure, Except.pure, Except.ok.injEq] at hs
        exact hs ▸ hacc
  cases pathItem with
  | null => exact absurd h (by simp [parsePathItem])
  | bool b =>
    exact foldlM_except_inv _ _ (fun b a b' => hstep b a b') httpMethodsImporter [] ops
      (by simp) h
  | num n =>
    exact foldlM_except_inv _ _ (fun b a b' => hstep b a b') httpMethodsImporter [] ops
      (by simp) h
  | str s =>
    exact foldlM_except_inv _ _ (fun b a b' => hstep b a b') httpMethodsImporter [] ops
      (by simp) h
  | seq l =>
    exact foldlM_except_inv _ _ (fun b a b' => hstep b a b') httpMethodsImporter [] ops
      (by simp) h
  | map kvs =>
    exact foldlM_except_inv _ _ (fun b a b' => hstep b a b') httpMethodsImporter [] ops
      (by simp) h

/-- All operations `parsePaths` yields store non-empty-or-absent
security. -/
theorem parsePathsJs_security (o : Option Yaml) (globalSec : Option Yaml)
    (res : List SwaggerPath) (h : parsePathsJs o globalSec = .ok res) :
    ∀ p ∈ res, ∀ op ∈ p.operations, op.security ≠ some [] := by
  have hstep : ∀ (acc : List SwaggerPath) (kv : String × Yaml) (res2 : List SwaggerPath),
      (∀ p ∈ acc, ∀ op ∈ p.operations, op.security ≠ some []) →
      pathsStep globalSec acc kv = .ok res2 →
      ∀ p ∈ res2, ∀ op ∈ p.operations, op.security ≠ some [] := by
    intro acc kv res2 hacc hs
    rw [pathsStep] at hs
    simp only [bind, Except.bind] at hs
    cases hitem : parsePathItem kv.snd globalSec with
    | error e => simp only [hitem] at hs; exact Except.noConfusion hs
    | ok ops =>
      simp only [hitem, pure, Except.pure, Except.ok.injEq] at hs
      subst hs
      by_cases hemp : ops.isEmpty = true
      · rw [if_pos hemp]
        exact hacc
      · rw [if_neg hemp]
        intro p hp
        rcases List.mem_append.mp hp with hmem | hmem
        · exact hacc p hmem
        · rw [List.mem_singleton.mp hmem]
          exact parsePathItem_security kv.snd globalSec ops hitem
  cases o with
  | none =>
    simp only [parsePathsJs, Except.ok.injEq] at h
    subst h
    simp
  | some pv =>
    rw [parsePathsJs] at h
    by_cases htr : yamlTruthy pv = true
    · rw [if_neg (by simp [htr])] at h
      exact foldlM_except_inv _ _ (fun b a b' => hstep b a b') (jsEntries pv) [] res
        (by simp) h
    · rw [if_pos (by simp [Bool.not_eq_true] at htr ⊢; exact htr)] at h
      simp only [Except.ok.injEq] at h
      subst h
      simp

/-- Structure of every successful `importParsed` result. -/
theorem importParsed_ok_shape (parsed : Yaml) (r : ImportResult)
    (h : importParsed parsed = .ok r) :
    r.success = r.errors.isEmpty
    ∧ (isObjLike parsed = true → ∃ doc, r.document = some doc ∧
        parsePathsJs (jsGet parsed "paths") (jsGet parsed "security") = .ok doc.paths)
    ∧ (isObjLike parsed = false → r.document = none
        ∧ r.errors = ["Invalid document: must be an object"]) := by
  by_cases hobj : isObjLike parsed = true
  · have htr : yamlTruthy parsed = true := yamlTruthy_of_isObjLike parsed hobj
    rw [importParsed, if_neg (by simp [htr, hobj])] at h
    simp only [bind, Except.bind] at h
    cases h1 : parseServersJs (jsGet parsed "servers") with
    | error e => simp only [h1] at h; exact Except.noConfusion h
    | ok servers =>
    simp only [h1] at h
    cases h2 : parseTagsJs (jsGet parsed "tags") with
    | error e => simp only [h2] at h; exact Except.noConfusion h
    | ok tags =>
    simp only [h2] at h
    cases h3 : parseSecuritySchemesJs (optChain (jsGet parsed "components") "securitySchemes") with
    | error e => simp only [h3] at h; exact Except.noConfusion h
    | ok schemes =>
    simp only [h3] at h
    cases h4 : parseSchemasJs (optChain (jsGet parsed "components") "schemas") with
    | error e => simp only [h4] at h; exact Except.noConfusion h
    | ok schemas =>
    simp only [h4] at h
    cases h5 : parsePathsJs (jsGet parsed "paths") (jsGet parsed "security") with
    | error e => simp only [h5] at h; exact Except.noConfusion h
    | ok paths =>
    simp only [h5, Except.ok.injEq] at h
    subst h
    refine ⟨rfl, fun _ => ⟨_, rfl, ?_⟩, fun hc => absurd hobj (by simp [hc])⟩
    rfl
  · have hfalse : isObjLike parsed = false := by simpa using hobj
    rw [importParsed, if_pos (by simp [hfalse])] at h
    simp only [Except.ok.injEq] at h
    subst h
    exact ⟨rfl, fun hc => absurd hc (by simp [hfalse]), fun _ => ⟨rfl, rfl⟩⟩

/-- C2 counterexample: the conversion after a successful parse can throw
(`(parsed.servers || []).map` on a non-array `servers` is a `TypeError`),
and a parse result that is not an object yields no document at all — so
neither "never throws for any input" nor "in every other case a document
is always built" holds as claimed. -/
theorem claim_C2_counterexample :
    importYamlDocument (.ok (Yaml.map [("servers", Yaml.num 5)])) = .error "TypeError"
    ∧ importYamlDocument (.ok (Yaml.num 42)) =
        .ok { success := false, document := none,
              errors := ["Invalid document: must be an object"], warnings := [] } :=
  ⟨rfl, rfl⟩

/-- C2 (amended): a YAML parse failure returns `success=false` with exactly
one error and no document; a successful parse whose value is falsy or not
an object also returns `success=false` with exactly one error and no
document (rather than a built document); whenever the conversion itself
does not throw a shape `TypeError`, an object-like parse always yields a
built document, and `success` is true exactly when the errors list is
empty. -/
theorem claim_C2_import_result_shape :
    (∀ msg, importYamlDocument (.error msg) =
      .ok { success := false, document := none,
            errors := ["YAML Parse Error: " ++ msg], warnings := [] })
    ∧ (∀ (v : Yaml) (r : ImportResult), importYamlDocument (.ok v) = .ok r →
        (r.success = true ↔ r.errors = [])
        ∧ (isObjLike v = true → r.document.isSome = true)
        ∧ (isObjLike v = false → r.document = none ∧ r.errors.length = 1)) := by
  refine ⟨fun msg => rfl, fun v r h => ?_⟩
  have hs := importParsed_ok_shape v r h
  refine ⟨?_, ?_, ?_⟩
  · rw [hs.1]
    exact List.isEmpty_iff
  · intro hobj
    obtain ⟨doc, hdoc, _⟩ := hs.2.1 hobj
    rw [hdoc]
    rfl
  · intro hobj
    obtain ⟨hdoc, herr⟩ := hs.2.2 hobj
    exact ⟨hdoc, by rw [herr]; rfl⟩

/-- C2 witness: the parse-failure branch and an object-like input at
concrete values. -/
theorem claim_C2_witness :
    importYamlDocument (.error "bad") =
      .ok { success := false, document := none,
            errors := ["YAML Parse Error: " ++ "bad"], warnings := [] }
    ∧ (({ success := false, document := some
            { openapi := "3.0.0", info := { title := "", description := "", version := "1.0.0" }
              servers := [], securitySchemes := [], tags := [], paths := [], schemas := [] }
          errors := ["Missing required field: openapi"]
          warnings := ["Missing info.title - will be empty"] } : ImportResult).document.isSome
        = true) := by
  constructor
  · exact claim_C2_import_result_shape.1 "bad"
  · exact (claim_C2_import_result_shape.2 (Yaml.map []) _ rfl).2.1 rfl

/-- C10: no document produced by the importer carries an operation with an
empty security list — an effective security of zero scheme names is stored
as `undefined` — so an operation-level `security: []` is indistinguishable
in the resulting model from an operation with no security field at all
(shown on a concrete pair of documents differing only in that field). -/
theorem claim_C10_no_empty_security :
    (∀ (pr : Except String Yaml) (r : ImportResult) (doc : SwaggerDocument)
        (p : SwaggerPath) (op : PathOperation),
      importYamlDocument pr = .ok r → r.document = some doc →
      p ∈ doc.paths → op ∈ p.operations → op.security ≠ some [])
    ∧ importYamlDocument (.ok secEmptyDoc) = importYamlDocument (.ok secAbsentDoc) := by
  constructor
  · intro pr r doc p op hok hdoc hp hop
    cases pr with
    | error msg =>
      simp only [importYamlDocument, Except.ok.injEq] at hok
      rw [← hok] at hdoc
      simp at hdoc
    | ok v =>
      have hs := importParsed_ok_shape v r hok
      by_cases hobj : isObjLike v = true
      · obtain ⟨doc2, hdoc2, hpaths⟩ := hs.2.1 hobj
        rw [hdoc2] at hdoc
        injection hdoc with hdoc
        subst hdoc
        exact parsePathsJs_security _ _ _ hpaths p hp op hop
      · obtain ⟨hnone, _⟩ := hs.2.2 (by simpa using hobj)
        rw [hnone] at hdoc
        exact Option.noConfusion hdoc
  · rfl

/-- C10 witness: the invariant applied to the concrete `security: []`
document. -/
theorem claim_C10_witness :
    ({ method := "get", tags := [], summary := "", operationId := ""
       description := "", parameters := [], responses := [] } : PathOperation).security
      ≠ some [] := by
  exact claim_C10_no_empty_security.1 (.ok secEmptyDoc)
    { success := true
      document := some
        { openapi := "3.0.0", info := { title := "T", description := "", version := "1" }
          servers := [], securitySchemes := [], tags := []
          paths := [{ path := "/a", operations :=
            [{ method := "get", tags := [], summary := "", operationId := ""
               description := "", parameters := [], responses := [] }] }]
          schemas := [] }
      errors := [], warnings := [] }
    { openapi := "3.0.0", info := { title := "T", description := "", version := "1" }
      servers := [], securitySchemes := [], tags := []
      paths := [{ path := "/a", operations :=
        [{ method := "get", tags := [], summary := "", operationId := ""
           description := "", parameters := [], responses := [] }] }]
      schemas := [] }
    { path := "/a", operations :=
      [{ method := "get", tags := [], summary := "", operationId := ""
         description := "", parameters := [], responses := [] }] }
    { method := "get", tags := [], summary := "", operationId := ""
      description := "", parameters := [], responses := [] }
    rfl rfl (by decide) (by decide)

/-- C1 (code-bug evidence): serializing a supported document whose info
description is the two-line string "a\nb" and importing the result yields
a document whose description is "a\nb\n" — the literal block scalar `|`
the serializer emits is clip-chomped by YAML and keeps one trailing
newline — so the round trip differs in a field outside the claim's two
allowed lossy fields (the enum string and the isTemplate flag), even
though the serializer's own comment says the block scalar is chosen "to
preserve newlines and formatting". -/
theorem claim_C1_roundtrip_failure :
    importYamlDocument (parseYamlSubset (buildYamlDocument roundTripCounterexampleDoc))
      = .ok { success := true
              document := some
                { openapi := "3.0.0"
                  info := { title := "T", description := "a\nb\n", version := "1.0.0" }
                  servers := [], securitySchemes := [], tags := [], paths := [], schemas := [] }
              errors := [], warnings := [] }
    ∧ "a\nb\n" ≠ roundTripCounterexampleDoc.info.description := by
  exact ⟨rfl, by decide⟩

/-- A string starts with its own prefix. -/
theorem strStartsWith_append (s t : String) : strStartsWith (s ++ t) s = true :=
  List.isPrefixOf_iff_prefix.mpr (List.prefix_append s.data t.data)

/-- Every parameter-check diagnostic is rooted under `paths.`. -/
theorem paramErrStep_rooted (pathKey op yamlContent : String) (params : List Yaml) :
    ∀ (acc : List ValidationError) (pn : String) (res : List ValidationError),
      (∀ e ∈ acc, strStartsWith e.path "paths." = true) →
      paramErrStep pathKey op yamlContent params acc pn = .ok res →
      ∀ e ∈ res, strStartsWith e.path "paths." = true := by
  intro acc pn res hacc h
  rw [paramErrStep] at h
  simp only [bind, Except.bind] at h
  cases h1 : jsSomeParamMatch params pn with
  | error e => simp only [h1] at h; exact Except.noConfusion h
  | ok b =>
    simp only [h1] at h
    by_cases hb : (!b) = true
    · rw [if_pos hb] at h
      simp only [pure, Except.pure, Except.ok.injEq] at h
      subst h
      intro e he
      rcases List.mem_append.mp he with hm | hm
      · exact hacc e hm
      · rw [List.mem_singleton.mp hm]
        exact strStartsWith_append "paths." _
    · rw [if_neg hb] at h
      simp only [pure, Except.pure, Except.ok.injEq] at h
      exact h ▸ hacc

/-- Every per-verb diagnostic is rooted under `paths.`. -/
theorem validateOpStep_rooted (pathKey : String) (pathItem : Yaml)
    (pathParams : List String) (yamlContent : String) :
    ∀ (acc : List ValidationError) (op : String) (res : List ValidationError),
      (∀ e ∈ acc, strStartsWith e.path "paths." = true) →
      validateOpStep pathKey pathItem pathParams yamlContent acc op = .ok res →
      ∀ e ∈ res, strStartsWith e.path "paths." = true := by
  intro acc op res hacc h
  rw [validateOpStep] at h
  cases hg : jsGet pathItem op with
  | none =>
    simp only [hg, pure, Except.pure, Except.ok.injEq] at h
    exact h ▸ hacc
  | some operation =>
    simp only [hg] at h
    by_cases htr : yamlTruthy operation = true
    · rw [if_pos htr] at h
      simp only [bind, Except.bind] at h
      cases h1 : paramsArrayOf (jsGet operation "parameters") with
      | error e => simp only [h1] at h; exact Except.noConfusion h
      | ok params =>
        simp only [h1] at h
        cases h2 : pathParams.foldlM (paramErrStep pathKey op yamlContent params) [] with
        | error e => simp only [h2] at h; exact Except.noConfusion h
        | ok paramErrs =>
          simp only [h2, pure, Except.pure, Except.ok.injEq] at h
          subst h
          have hparam : ∀ e ∈ paramErrs, strStartsWith e.path "paths." = true :=
            foldlM_except_inv _ _
              (fun b a b' => paramErrStep_rooted pathKey op yamlContent params b a b')
              pathParams [] paramErrs (by simp) h2
          intro e he
          rcases List.mem_append.mp he with hm | hm
          · rcases List.mem_append.mp hm with hm2 | hm2
            · rcases List.mem_append.mp hm2 with hm3 | hm3
              · exact hacc e hm3
              · rcases List.mem_ite_nil_right.mp hm3 with ⟨_, hm4⟩
                rw [List.mem_singleton.mp hm4]
                exact strStartsWith_append "paths." _
            · rcases List.mem_ite_nil_right.mp hm2 with ⟨_, hm4⟩
              rw [List.mem_singleton.mp hm4]
              exact strStartsWith_append "paths." _
          · exact hparam e hm
    · rw [if_neg htr] at h
      simp only [pure, Except.pure, Except.ok.injEq] at h
      exact h ▸ hacc

/-- Every per-path-entry diagnostic is rooted under `paths.`. -/
theorem validatePathStep_rooted (yamlContent : String) :
    ∀ (acc : List ValidationError) (kv : String × Yaml) (res : List ValidationError),
      (∀ e ∈ acc, strStartsWith e.path "paths." = true) →
      validatePathStep yamlContent acc kv = .ok res →
      ∀ e ∈ res, strStartsWith e.path "paths." = true := by
  intro acc kv res hacc h
  rw [validatePathStep] at h
  simp only [bind, Except.bind] at h
  by_cases hc : (!(extractPathParameters kv.fst).isEmpty && yamlTruthy kv.snd
      && isObjLike kv.snd) = true
  · rw [if_pos hc] at h
    cases h1 : validatorMethods.foldlM
        (validateOpStep kv.fst kv.snd (extractPathParameters kv.fst) yamlContent) [] with
    | error e => simp only [h1] at h; exact Except.noConfusion h
    | ok opErrs =>
      simp only [h1, pure, Except.pure, Except.ok.injEq] at h
      subst h
      have hop : ∀ e ∈ opErrs, strStartsWith e.path "paths." = true :=
        foldlM_except_inv _ _
          (fun b a b' => validateOpStep_rooted kv.fst kv.snd _ yamlContent b a b')
          validatorMethods [] opErrs (by simp) h1
      intro e he
      rcases List.mem_append.mp he with hm | hm
      · rcases List.mem_append.mp hm with hm2 | hm2
        · exact hacc e hm2
        · rcases List.mem_ite_nil_right.mp hm2 with ⟨_, hm4⟩
          rw [List.mem_singleton.mp hm4]
          exact strStartsWith_append "paths." _
      · exact hop e hm
  · rw [if_neg hc] at h
    simp only [pure, Except.pure, Except.ok.injEq] at h
    subst h
    intro e he
    rcases List.mem_append.mp he with hm | hm
    · rcases List.mem_append.mp hm with hm2 | hm2
      · exact hacc e hm2
      · rcases List.mem_ite_nil_right.mp hm2 with ⟨_, hm4⟩
        rw [List.mem_singleton.mp hm4]
        exact strStartsWith_append "paths." _
    · exact absurd hm (by simp)

/-- Every diagnostic of `validatePaths` is rooted under `paths.`. -/
theorem validatePathsV_rooted (paths : Yaml) (yamlContent : String)
    (errs : List ValidationError) (h : validatePathsV paths yamlContent = .ok errs) :
    ∀ e ∈ errs, strStartsWith e.path "paths." = true :=
  foldlM_except_inv _ _ (fun b a b' => validatePathStep_rooted yamlContent b a b')
    (jsEntries paths) [] errs (by simp) h

/-- Every diagnostic of `validateSchemas` is rooted under
`components.schemas.`. -/
theorem validateSchemasV_rooted (schemas : Yaml) (yamlContent : String) :
    ∀ e ∈ validateSchemasV schemas yamlContent,
      strStartsWith e.path "components.schemas." = true := by
  intro e he
  rw [validateSchemasV] at he
  obtain ⟨kv, _, hin⟩ := List.mem_flatMap.mp he
  by_cases hobj : (yamlTruthy kv.snd && isObjLike kv.snd) = true
  · rw [if_pos hobj] at hin
    rcases List.mem_append.mp hin with hm | hm
    · rcases List.mem_append.mp hm with hm2 | hm2
      · rcases List.mem_ite_nil_right.mp hm2 with ⟨_, hm4⟩
        rw [List.mem_singleton.mp hm4]
        exact strStartsWith_append "components.schemas." _
      · rcases List.mem_ite_nil_right.mp hm2 with ⟨_, hm4⟩
        rw [List.mem_singleton.mp hm4]
        exact strStartsWith_append "components.schemas." _
    · rcases List.mem_ite_nil_right.mp hm with ⟨_, hm4⟩
      rw [List.mem_singleton.mp hm4]
      exact strStartsWith_append "components.schemas." _
  · rw [if_neg hobj] at hin
    exact absurd hin (by simp)

/-- C8 counterexample: validating the empty-object document (which parses
to an object and lacks `openapi`) yields two errors — the `openapi` one
and the missing-`info` one — not exactly one (here with the external
full-spec stage contributing nothing; any other external outcome only adds
more). -/
theorem claim_C8_counterexample :
    (validateOpenApiSpec (.ok (Yaml.map [])) "" ExternalOutcome.ok).map
        (fun r => (r.errors.length, r.errors.map (fun e => e.path)))
      = .ok (2, ["openapi", "info"]) := rfl

/-- C8 (amended): when the structural pass of the validator completes on a
document whose `openapi` field is absent (or falsy), exactly one of its
diagnostics has path "openapi" — alongside possibly further diagnostics at
other paths (and whatever the external full-spec stage adds) — and every
diagnostic at path "openapi" is an error. -/
theorem claim_C8_missing_openapi :
    ∀ (spec : Yaml) (content : String) (errs : List ValidationError),
      performStructuralValidation spec content = .ok errs →
      yamlTruthyOpt (jsGet spec "openapi") = false →
      (errs.filter (fun e => e.path == "openapi")).length = 1
      ∧ ∀ e ∈ errs, e.path = "openapi" → e.severity = Severity.error := by
  intro spec content errs h hfalsy
  rw [performStructuralValidation] at h
  simp only [bind, Except.bind] at h
  cases hp : pathsErrsOf spec content with
  | error e => simp only [hp] at h; exact Except.noConfusion h
  | ok pathsErrs =>
  simp only [hp, pure, Except.pure, Except.ok.injEq] at h
  subst h
  have hopen : openapiErrsOf spec content = [missingOpenapiErr] := by
    cases hg : jsGet spec "openapi" with
    | none => simp [openapiErrsOf, hg]
    | some v =>
      simp only [hg, yamlTruthyOpt] at hfalsy
      simp [openapiErrsOf, hg, hfalsy]
  have hinfo : ∀ e ∈ infoErrsOf spec content, e.path ≠ "openapi" := by
    intro e he
    rw [infoErrsOf] at he
    cases hg2 : jsGet spec "info" with
    | none =>
      simp only [hg2] at he
      rw [List.mem_singleton.mp he]
      show "info" ≠ "openapi"
      decide
    | some iv =>
      simp only [hg2] at he
      by_cases htr : yamlTruthy iv = true
      · rw [if_pos htr] at he
        rcases List.mem_append.mp he with hm | hm
        · rcases List.mem_ite_nil_right.mp hm with ⟨_, hm4⟩
          rw [List.mem_singleton.mp hm4]
          show "info.title" ≠ "openapi"
          decide
        · rcases List.mem_ite_nil_right.mp hm with ⟨_, hm4⟩
          rw [List.mem_singleton.mp hm4]
          show "info.version" ≠ "openapi"
          decide
      · rw [if_neg htr] at he
        rw [List.mem_singleton.mp he]
        show "info" ≠ "openapi"
        decide
  have hpaths : ∀ e ∈ pathsErrs, e.path ≠ "openapi" := by
    intro e he
    rw [pathsErrsOf] at hp
    cases hg3 : jsGet spec "paths" with
    | none =>
      simp only [hg3, pure, Except.pure, Except.ok.injEq] at hp
      rw [← hp] at he
      rw [List.mem_singleton.mp he]
      show "paths" ≠ "openapi"
      decide
    | some pv =>
      simp only [hg3] at hp
      by_cases htr : yamlTruthy pv = true
      · rw [if_pos htr] at hp
        have hpre := validatePathsV_rooted pv content pathsErrs hp e he
        intro heq
        rw [heq] at hpre
        exact absurd hpre (by decide)
      · rw [if_neg htr] at hp
        simp only [pure, Except.pure, Except.ok.injEq] at hp
        rw [← hp] at he
        rw [List.mem_singleton.mp he]
        show "paths" ≠ "openapi"
        decide
  have hschemas : ∀ e ∈ schemaErrsOf spec content, e.path ≠ "openapi" := by
    intro e he
    rw [schemaErrsOf] at he
    cases hg4 : jsGet spec "components" with
    | none => simp only [hg4] at he; exact absurd he (by simp)
    | some cv =>
      simp only [hg4] at he
      by_cases htr : yamlTruthy cv = true
      · rw [if_pos htr] at he
        cases hg5 : jsGet cv "schemas" with
        | none => simp only [hg5] at he; exact absurd he (by simp)
        | some sv =>
          simp only [hg5] at he
          by_cases htr2 : yamlTruthy sv = true
          · rw [if_pos htr2] at he
            have hpre := validateSchemasV_rooted sv content e he
            intro heq
            rw [heq] at hpre
            exact absurd hpre (by decide)
          · rw [if_neg htr2] at he
            exact absurd he (by simp)
      · rw [if_neg htr] at he
        exact absurd he (by simp)
  have hfil : ∀ (l : List ValidationError), (∀ e ∈ l, e.path ≠ "openapi") →
      l.filter (fun e => e.path == "openapi") = [] := by
    intro l hl
    rw [List.filter_eq_nil]
    intro a ha
    simp [hl a ha]
  constructor
  · rw [hopen, List.filter_append, List.filter_append, List.filter_append]
    rw [hfil _ hinfo, hfil _ hpaths, hfil _ hschemas]
    rfl
  · intro e he heq
    rw [hopen] at he
    rcases List.mem_append.mp he with hm | hm
    · rcases List.mem_append.mp hm with hm2 | hm2
      · rcases List.mem_append.mp hm2 with hm3 | hm3
        · rw [List.mem_singleton.mp hm3]
          rfl
        · exact absurd heq (hinfo e hm3)
      · exact absurd heq (hpaths e hm2)
    · exact absurd heq (hschemas e hm)

/-- C8 witness: the structural diagnostics of the empty-object document
carry exactly one entry at path "openapi". -/
theorem claim_C8_witness :
    (structErrsEmptyObj.filter (fun e => e.path == "openapi")).length = 1 :=
  (claim_C8_missing_openapi (Yaml.map []) "" structErrsEmptyObj rfl rfl).1
